import Mathlib

/-!
# Verification of the bizi-task-manager workflow and calendar engines

Shallow embedding of `backend/services/workflow_automation.py` and
`backend/services/google_calendar.py`.  Datetimes are modelled as minutes
(`Int`), so one hour is 60 and one day is 1440.  The SQLAlchemy session is
modelled as an explicit store (`DB`) holding insertion-ordered rows; a
`query(...).first()` becomes `List.find?` and `db.add` appends to the list.
The wall clock (`datetime.now`) is passed explicitly as a `now : Int`
parameter.  Python truthiness of optional strings (None and the empty string
are both falsy) is modelled by `optTruthy`.
-/

namespace Bizi

/-- `TaskType` enum from `models.py`. -/
inductive TaskType where
  | recording
  | editing
  | reels
  | publishing
  | studio_preparation
deriving DecidableEq

/-- `TaskStatus` enum from `models.py`. -/
inductive TaskStatus where
  | not_started
  | in_progress
  | blocked
  | sent_to_client
  | done
  | skipped
deriving DecidableEq

/-- `EpisodeStatus` enum from `models.py`. -/
inductive EpisodeStatus where
  | not_started
  | recorded
  | in_editing
  | sent_to_client
  | published
deriving DecidableEq

/-- Row of the `podcasts` table (fields that the verified code reads). -/
structure Podcast where
  id : Nat
  name : String
  default_studio_settings : Option String
deriving DecidableEq

/-- Row of the `podcast_aliases` table.  The source column is named `alias`,
which is a reserved word here, hence `aliasText`. -/
structure PodcastAlias where
  podcast_id : Nat
  aliasText : String
deriving DecidableEq

/-- Row of the `episodes` table (fields that the verified code reads). -/
structure Episode where
  id : Nat
  podcast_id : Nat
  episode_number : Option String
  recording_date : Option Int
  studio : Option String
  guest_names : Option String
  status : EpisodeStatus
  episode_notes : Option String
  recording_engineer_id : Option Nat
  editing_engineer_id : Option Nat
  reels_engineer_id : Option Nat
  reels_notes : Option String
  studio_settings_override : Option String
  client_approved_editing : String
  client_approved_reels : String
deriving DecidableEq

/-- Row of the `tasks` table. -/
structure Task where
  id : Nat
  episode_id : Nat
  type : TaskType
  status : TaskStatus
  assigned_to : Option Nat
  due_date : Option Int
  completed_at : Option Int
  notes : String
deriving DecidableEq

/-- The database session: insertion-ordered row lists plus fresh-id counters
(modelling autogenerated primary keys). -/
structure DB where
  podcasts : List Podcast
  aliases : List PodcastAlias
  episodes : List Episode
  tasks : List Task
  nextTaskId : Nat
  nextEpisodeId : Nat
deriving DecidableEq

/-- Python truthiness of an optional string: `None` and `""` are falsy. -/
def optTruthy : Option String → Bool
  | none => false
  | some s => s ≠ ""

/-- `_task_notes_with_episode` from `workflow_automation.py`. -/
def task_notes_with_episode (base : String) (ep : Episode) : String :=
  match ep.episode_notes with
  | some n => if n ≠ "" ∧ n.trim ≠ "" then base ++ "\n\nEpisode notes: " ++ n.trim else base
  | none => base

/-- The `query(Task).filter(episode_id == .., type == ..).first()` pattern. -/
def findTaskOfType (ts : List Task) (epId : Nat) (ty : TaskType) : Option Task :=
  ts.find? (fun t => t.episode_id == epId && t.type == ty)

/-- Number of tasks of a given (episode, type) pair in the store. -/
def countPair (ts : List Task) (epId : Nat) (ty : TaskType) : Nat :=
  (ts.filter (fun t => t.episode_id == epId && t.type == ty)).length

/-- Whether some task of the (episode, type) pair exists in the store. -/
def hasPair (ts : List Task) (epId : Nat) (ty : TaskType) : Bool :=
  ts.any (fun t => t.episode_id == epId && t.type == ty)

/-- `episode.podcast` relationship lookup. -/
def podcastOf (db : DB) (ep : Episode) : Option Podcast :=
  db.podcasts.find? (fun p => p.id == ep.podcast_id)

/-- The past-due-date clamp `if due_date < now: due_date = now`. -/
def clampDue (d now : Int) : Int := if d < now then now else d

/-- Append a freshly created task to the session (`db.add` + `db.commit`). -/
def addTask (db : DB) (t : Task) : DB :=
  { db with tasks := db.tasks ++ [t], nextTaskId := db.nextTaskId + 1 }

/-- `create_studio_preparation_task` from `workflow_automation.py`. -/
def create_studio_preparation_task (now : Int) (db : DB) (ep : Episode) : Option Task × DB :=
  match findTaskOfType db.tasks ep.id TaskType.studio_preparation with
  | some existing => (some existing, db)
  | none =>
    let studio_settings : Option String :=
      if optTruthy ep.studio_settings_override then ep.studio_settings_override
      else match podcastOf db ep with
           | some p => p.default_studio_settings
           | none => none
    let due_date : Option Int :=
      match ep.recording_date with
      | some rd => some (clampDue (rd - 60) now)
      | none => none
    let base_notes :=
      if optTruthy studio_settings then "Studio setup: " ++ studio_settings.getD ""
      else "Prepare studio for recording"
    let task : Task :=
      { id := db.nextTaskId
        episode_id := ep.id
        type := TaskType.studio_preparation
        status := TaskStatus.not_started
        assigned_to := ep.recording_engineer_id
        due_date := due_date
        completed_at := none
        notes := task_notes_with_episode base_notes ep }
    (some task, addTask db task)

/-- `create_recording_task` from `workflow_automation.py`. -/
def create_recording_task (now : Int) (db : DB) (ep : Episode) : Option Task × DB :=
  match findTaskOfType db.tasks ep.id TaskType.recording with
  | some existing => (some existing, db)
  | none =>
    let due_date : Option Int :=
      match ep.recording_date with
      | some rd => some (clampDue rd now)
      | none => none
    let task : Task :=
      { id := db.nextTaskId
        episode_id := ep.id
        type := TaskType.recording
        status := TaskStatus.not_started
        assigned_to := ep.recording_engineer_id
        due_date := due_date
        completed_at := none
        notes := task_notes_with_episode "Record the episode" ep }
    (some task, addTask db task)

/-- `create_editing_task` from `workflow_automation.py` (due two days after
recording, never clamped). -/
def create_editing_task (db : DB) (ep : Episode) : Option Task × DB :=
  match findTaskOfType db.tasks ep.id TaskType.editing with
  | some existing => (some existing, db)
  | none =>
    let due_date : Option Int :=
      match ep.recording_date with
      | some rd => some (rd + 2880)
      | none => none
    let base_notes :=
      "Edit episode. Update to 'Sent to client' when sent; complete when client approves."
    let task : Task :=
      { id := db.nextTaskId
        episode_id := ep.id
        type := TaskType.editing
        status := TaskStatus.not_started
        assigned_to := ep.editing_engineer_id
        due_date := due_date
        completed_at := none
        notes := task_notes_with_episode base_notes ep }
    (some task, addTask db task)

/-- `create_reels_task` from `workflow_automation.py`. -/
def create_reels_task (db : DB) (ep : Episode) : Option Task × DB :=
  match findTaskOfType db.tasks ep.id TaskType.reels with
  | some existing => (some existing, db)
  | none =>
    let due_date : Option Int :=
      match ep.recording_date with
      | some rd => some (rd + 2880)
      | none => none
    let base_notes :=
      if optTruthy ep.reels_notes then ep.reels_notes.getD ""
      else "Export reels from episode. Update to 'Sent to client' when sent; complete when client approves."
    let task : Task :=
      { id := db.nextTaskId
        episode_id := ep.id
        type := TaskType.reels
        status := TaskStatus.not_started
        assigned_to := ep.reels_engineer_id
        due_date := due_date
        completed_at := none
        notes := task_notes_with_episode base_notes ep }
    (some task, addTask db task)

/-- `create_publishing_task` from `workflow_automation.py`: gated on both
client approvals; no due date, no assignee. -/
def create_publishing_task (db : DB) (ep : Episode) : Option Task × DB :=
  match findTaskOfType db.tasks ep.id TaskType.publishing with
  | some existing => (some existing, db)
  | none =>
    if ep.client_approved_editing = "approved" ∧ ep.client_approved_reels = "approved" then
      let task : Task :=
        { id := db.nextTaskId
          episode_id := ep.id
          type := TaskType.publishing
          status := TaskStatus.not_started
          assigned_to := none
          due_date := none
          completed_at := none
          notes := task_notes_with_episode
            "Publish episode. Both editing and reels have been approved by client." ep }
      (some task, addTask db task)
    else (none, db)

/-- Point update of every task carrying a given id (`task.x = ..; db.commit()`). -/
def updateTask (ts : List Task) (tid : Nat) (f : Task → Task) : List Task :=
  ts.map (fun t => if t.id == tid then f t else t)

/-- Field update applied when a task is marked done with timestamp `now`. -/
def markDone (now : Int) (t : Task) : Task :=
  { t with status := TaskStatus.done, completed_at := some now }

/-- Field update applied when a task is reset to in-progress. -/
def markReopened (t : Task) : Task :=
  { t with status := TaskStatus.in_progress, completed_at := none }

/-- `auto_complete_studio_preparation` from `workflow_automation.py`. -/
def auto_complete_studio_preparation (now : Int) (db : DB) (ep : Episode) : DB :=
  match db.tasks.find? (fun t =>
      t.episode_id == ep.id && t.type == TaskType.studio_preparation &&
      t.status != TaskStatus.done) with
  | some task =>
    { db with tasks := updateTask db.tasks task.id (markDone now) }
  | none => db

/-- `sync_editing_task_status` from `workflow_automation.py`. -/
def sync_editing_task_status (now : Int) (db : DB) (ep : Episode) : DB :=
  match findTaskOfType db.tasks ep.id TaskType.editing with
  | none => db
  | some task =>
    if ep.client_approved_editing = "approved" then
      if task.status ≠ TaskStatus.done then
        { db with tasks := updateTask db.tasks task.id (markDone now) }
      else db
    else if ep.client_approved_editing = "rejected" then
      if task.status = TaskStatus.done ∨ task.status = TaskStatus.sent_to_client then
        { db with tasks := updateTask db.tasks task.id markReopened }
      else db
    else db

/-- `sync_reels_task_status` from `workflow_automation.py`. -/
def sync_reels_task_status (now : Int) (db : DB) (ep : Episode) : DB :=
  match findTaskOfType db.tasks ep.id TaskType.reels with
  | none => db
  | some task =>
    if ep.client_approved_reels = "approved" then
      if task.status ≠ TaskStatus.done then
        { db with tasks := updateTask db.tasks task.id (markDone now) }
      else db
    else if ep.client_approved_reels = "rejected" then
      if task.status = TaskStatus.done ∨ task.status = TaskStatus.sent_to_client then
        { db with tasks := updateTask db.tasks task.id markReopened }
      else db
    else db

/-- Predicate selecting the rows deleted by
`delete_stale_studio_preparation_tasks`: studio preparation tasks with a due
date more than one day (1440 minutes) before `now`. -/
def staleStudioPrep (now : Int) (t : Task) : Bool :=
  t.type == TaskType.studio_preparation &&
  (match t.due_date with
   | some d => decide (d < now - 1440)
   | none => false)

/-- `delete_stale_studio_preparation_tasks` from `workflow_automation.py`. -/
def delete_stale_studio_preparation_tasks (now : Int) (db : DB) : Nat × DB :=
  let deleted := (db.tasks.filter (staleStudioPrep now)).length
  (deleted, { db with tasks := db.tasks.filter (fun t => !(staleStudioPrep now t)) })

/-- `process_episode_status_change` from `workflow_automation.py`, written as
the composition of its sequential statements: when the episode is recorded,
auto-complete studio preparation then ensure editing and reels tasks; always
sync both approval-driven task statuses and attempt the publishing task.  The
`old_status` argument is only logged by the code, so it does not appear here. -/
def process_episode_status_change (now : Int) (db : DB) (ep : Episode) : DB :=
  (create_publishing_task
    (sync_reels_task_status now
      (sync_editing_task_status now
        (if ep.status = EpisodeStatus.recorded then
          (create_reels_task
            ((create_editing_task (auto_complete_studio_preparation now db ep) ep).2)
            ep).2
        else db)
        ep)
      ep)
    ep).2

/-- `process_task_status_change` from `workflow_automation.py`. -/
def process_task_status_change (now : Int) (db : DB) (task : Task)
    (old_status : TaskStatus) : DB :=
  if old_status = TaskStatus.done then db
  else if task.status ≠ TaskStatus.done then db
  else
    match db.episodes.find? (fun e => e.id == task.episode_id) with
    | none => db
    | some episode =>
      if task.type = TaskType.studio_preparation then
        (create_recording_task now db episode).2
      else if task.type = TaskType.recording then
        process_episode_status_change now
          { db with episodes := db.episodes.map (fun e =>
              if e.id == episode.id then { episode with status := EpisodeStatus.recorded }
              else e) }
          { episode with status := EpisodeStatus.recorded }
      else db

/-!
## Title parsing (`parse_event_title` in `google_calendar.py`)

The episode-number extraction is a sequence of `re.finditer` passes.  Each
regex here is realised as a hand-rolled matcher over `List Char`; since every
pattern starts with `(\d+)` (or a literal label) followed by non-digit
syntax, greedy maximal-munch scanning from each start position coincides with
the Python regex semantics, and a match always consumes at least one
character, so the fuel `length + 1` given to the scanners is never exhausted
before the input is. -/

/-- Maximal leading digit run (the greedy `(\d+)` group) and the rest. -/
def digitsSpan : List Char → List Char × List Char
  | [] => ([], [])
  | c :: cs =>
    if c.isDigit then
      let p := digitsSpan cs
      (c :: p.1, p.2)
    else ([], c :: cs)

/-- Drop leading whitespace (the `\s*` pattern). -/
def skipSpaces : List Char → List Char
  | [] => []
  | c :: cs => if c.isWhitespace then skipSpaces cs else c :: cs

/-- Consume one of the separators `&`, `,`, `/`, `and` (case-insensitive),
as in the regex `(?:&|and|,|/)`. -/
def matchMultiSep : List Char → Option (List Char)
  | '&' :: r => some r
  | ',' :: r => some r
  | '/' :: r => some r
  | a :: n :: d :: r =>
    if a.toLower = 'a' ∧ n.toLower = 'n' ∧ d.toLower = 'd' then some r else none
  | _ => none

/-- Consume the separator of the range pattern `(\d+)\s*-\s*(\d+)`. -/
def matchRangeSep : List Char → Option (List Char)
  | '-' :: r => some r
  | _ => none

/-- Consume the Hebrew conjunction of `(\d+)\s*ו-?\s*(\d+)`. -/
def matchHebrewSep : List Char → Option (List Char)
  | 'ו' :: '-' :: r => some r
  | 'ו' :: r => some r
  | _ => none

/-- Try to match `(\d+)\s*SEP\s*(\d+)` at the head of the input; on success
return the two digit groups and the input remaining after the match. -/
def tryPairAt (sep : List Char → Option (List Char)) (l : List Char) :
    Option (String × String × List Char) :=
  match digitsSpan l with
  | ([], _) => none
  | (d1, r1) =>
    match sep (skipSpaces r1) with
    | none => none
    | some r2 =>
      match digitsSpan (skipSpaces r2) with
      | ([], _) => none
      | (d2, r3) => some (String.mk d1, String.mk d2, r3)

/-- `re.finditer` for a two-group pattern: scan left to right, emit
non-overlapping matches, resume after each match.  `fuel` dominates the
number of steps (each step drops at least one character). -/
def finditerPairsAux (tryAt : List Char → Option (String × String × List Char)) :
    Nat → List Char → List (String × String)
  | 0, _ => []
  | _ + 1, [] => []
  | fuel + 1, l@(_ :: rest) =>
    match tryAt l with
    | some (g1, g2, after) => (g1, g2) :: finditerPairsAux tryAt fuel after
    | none => finditerPairsAux tryAt fuel rest

def finditerPairs (tryAt : List Char → Option (String × String × List Char))
    (l : List Char) : List (String × String) :=
  finditerPairsAux tryAt (l.length + 1) l

/-- Case-insensitive literal prefix match; returns the rest on success. -/
def ciPrefixDrop : List Char → List Char → Option (List Char)
  | [], r => some r
  | p :: ps, c :: cs => if c.toLower = p then ciPrefixDrop ps cs else none
  | _ :: _, [] => none

/-- The alternation `(?:פרק|#|episode|ep)` of the label pattern, in regex
order; each alternative that matches yields a candidate rest. -/
def labelRests (l : List Char) : List (List Char) :=
  (ciPrefixDrop ['פ', 'ר', 'ק'] l).toList ++ (ciPrefixDrop ['#'] l).toList ++
  (ciPrefixDrop "episode".data l).toList ++ (ciPrefixDrop "ep".data l).toList

/-- Try to match `(?:פרק|#|episode|ep)\s*(\d+)` at the head of the input,
backtracking through the alternation as the Python engine does. -/
def tryLabelAt (l : List Char) : Option (String × List Char) :=
  (labelRests l).findSome? (fun r =>
    match digitsSpan (skipSpaces r) with
    | ([], _) => none
    | (d, rest) => some (String.mk d, rest))

/-- `re.finditer` for the one-group label pattern. -/
def finditerLabelsAux : Nat → List Char → List String
  | 0, _ => []
  | _ + 1, [] => []
  | fuel + 1, l@(_ :: rest) =>
    match tryLabelAt l with
    | some (d, after) => d :: finditerLabelsAux fuel after
    | none => finditerLabelsAux fuel rest

def finditerLabels (l : List Char) : List String :=
  finditerLabelsAux (l.length + 1) l

/-- `re.search` for the trailing pattern `[-–]\s*(\d+)\s*$`. -/
def searchDashNumEnd : List Char → Option String
  | [] => none
  | c :: r =>
    (if c = '-' ∨ c = '–' then
      match digitsSpan (skipSpaces r) with
      | ([], _) => none
      | (d, rest) => if skipSpaces rest = ([] : List Char) then some (String.mk d) else none
     else none) <|> searchDashNumEnd r

/-- `re.search` for the trailing pattern `\s+(\d+)\s*$`. -/
def searchSpaceNumEnd : List Char → Option String
  | [] => none
  | c :: r =>
    (if c.isWhitespace then
      match digitsSpan (skipSpaces r) with
      | ([], _) => none
      | (d, rest) => if skipSpaces rest = ([] : List Char) then some (String.mk d) else none
     else none) <|> searchSpaceNumEnd r

/-- `int(..)` on a digit group. -/
def natOfDigits (s : String) : Nat :=
  s.data.foldl (fun a c => a * 10 + (c.toNat - 48)) 0

/-- Append a number string unless already collected (the `seen` set kept in
sync with the ordered `episode_numbers` list). -/
def addUnique (l : List String) (g : String) : List String :=
  if g ∈ l then l else l ++ [g]

/-- Loop body for the multi-number and Hebrew-conjunction passes: add both
groups of the match. -/
def pairStep (l : List String) (p : String × String) : List String :=
  addUnique (addUnique l p.1) p.2

/-- Loop body for the range pass `(\d+)\s*-\s*(\d+)`: a sane range (low ≤
high and span at most 10) is expanded to every integer; the `elif` mirrors
`low == high or (high - low) == 1` from the source (with Python negative
differences never equal to 1, exactly as truncated subtraction here). -/
def rangeStep (l : List String) (p : String × String) : List String :=
  if natOfDigits p.1 ≤ natOfDigits p.2 ∧ natOfDigits p.2 - natOfDigits p.1 ≤ 10 then
    ((List.range (natOfDigits p.2 + 1 - natOfDigits p.1)).map
      (fun i => toString (natOfDigits p.1 + i))).foldl addUnique l
  else if natOfDigits p.1 = natOfDigits p.2 ∨ natOfDigits p.2 - natOfDigits p.1 = 1 then
    addUnique (addUnique l p.1) p.2
  else l

/-- The `episode_numbers` list produced by `parse_event_title`. -/
def parse_event_title_numbers (title : String) : List String :=
  if title = "" then []
  else
    if ((finditerLabels title.data).foldl addUnique
        ((finditerPairs (tryPairAt matchHebrewSep) title.data).foldl pairStep
          ((finditerPairs (tryPairAt matchRangeSep) title.data).foldl rangeStep
            ((finditerPairs (tryPairAt matchMultiSep) title.data).foldl pairStep [])))) =
        [] then
      match searchDashNumEnd title.data with
      | some g => [g]
      | none =>
        match searchSpaceNumEnd title.data with
        | some g => [g]
        | none => []
    else
      (finditerLabels title.data).foldl addUnique
        ((finditerPairs (tryPairAt matchHebrewSep) title.data).foldl pairStep
          ((finditerPairs (tryPairAt matchRangeSep) title.data).foldl rangeStep
            ((finditerPairs (tryPairAt matchMultiSep) title.data).foldl pairStep [])))

/-!
## Podcast resolution (`google_calendar.py`)

SQL `ilike` without wildcard characters is case-insensitive equality; Python
`in` on lowered strings is the contiguous-sublist test on the character
lists. -/

/-- Python `str.strip()`, realised on the character list so that the kernel
can evaluate it. -/
def strStrip (s : String) : String :=
  String.mk (((s.data.dropWhile Char.isWhitespace).reverse.dropWhile
    Char.isWhitespace).reverse)

/-- Python `str.lower()`, realised on the character list. -/
def strLower (s : String) : String :=
  String.mk (s.data.map Char.toLower)

/-- `db.query(Podcast).filter(Podcast.id == pid).first()`. -/
def find_podcast_by_id (db : DB) (pid : Nat) : Option Podcast :=
  db.podcasts.find? (fun p => p.id == pid)

/-- `find_podcast_by_name_or_alias` from `google_calendar.py`: exact name,
case-insensitive name, exact alias, case-insensitive alias, in that order. -/
def find_podcast_by_name_or_alias (db : DB) (podcast_name : String) : Option Podcast :=
  if podcast_name = "" then none
  else
    match db.podcasts.find? (fun p => p.name == strStrip podcast_name) with
    | some p => some p
    | none =>
      match db.podcasts.find?
          (fun p => strLower p.name == strLower (strStrip podcast_name)) with
      | some p => some p
      | none =>
        match db.aliases.find? (fun a => a.aliasText == strStrip podcast_name) with
        | some a => find_podcast_by_id db a.podcast_id
        | none =>
          match db.aliases.find?
              (fun a => strLower a.aliasText == strLower (strStrip podcast_name)) with
          | some a => find_podcast_by_id db a.podcast_id
          | none => none

/-- Contiguous occurrence of `needle` inside a character list. -/
def containsSub (needle : List Char) : List Char → Bool
  | [] => needle.isEmpty
  | l@(_ :: rest) => needle.isPrefixOf l || containsSub needle rest

/-- Python `needle in hay` on strings. -/
def strContains (hay needle : String) : Bool :=
  containsSub needle.data hay.data

/-- The `(podcast_id, match_length)` candidate list built by
`find_podcast_from_event_title` when the whole-title lookup fails: every
podcast name and every alias occurring case-insensitively in the title. -/
def titleCandidates (db : DB) (title : String) : List (Nat × Nat) :=
  (db.podcasts.filterMap (fun p =>
    if p.name ≠ "" ∧ strContains (strLower title) (strLower (strStrip p.name)) then
      some (p.id, (strStrip p.name).length)
    else none)) ++
  (db.aliases.filterMap (fun a =>
    if a.aliasText ≠ "" ∧ strContains (strLower title) (strLower (strStrip a.aliasText)) then
      some (a.podcast_id, (strStrip a.aliasText).length)
    else none))

/-- Python `max(candidates, key=lambda x: x[1])`: the first candidate of
maximal length (later candidates replace only on strictly greater length). -/
def pyMaxBySnd (x : Nat × Nat) (xs : List (Nat × Nat)) : Nat × Nat :=
  xs.foldl (fun b y => if y.2 > b.2 then y else b) x

/-- `find_podcast_from_event_title` from `google_calendar.py`. -/
def find_podcast_from_event_title (db : DB) (event_title : String) : Option Podcast :=
  if event_title = "" then none
  else
    match find_podcast_by_name_or_alias db (strStrip event_title) with
    | some p => some p
    | none =>
      match titleCandidates db (strStrip event_title) with
      | [] => none
      | c :: cs => find_podcast_by_id db (pyMaxBySnd c cs).1

/-- `find_or_create_podcast` from `google_calendar.py`: resolve by name or
alias, else create a new podcast named by the text (used only by direct and
manual lookup paths). -/
def find_or_create_podcast (db : DB) (podcast_name : String) (freshId : Nat) :
    Option Podcast × DB :=
  if podcast_name = "" then (none, db)
  else
    match find_podcast_by_name_or_alias db podcast_name with
    | some p => (some p, db)
    | none =>
      let p : Podcast := { id := freshId, name := podcast_name, default_studio_settings := none }
      (some p, { db with podcasts := db.podcasts ++ [p] })

/-!
## Event-to-episode upsert (`create_or_update_episode_from_event`) -/

/-- The event data handed to the upserter (the output shape of
`extract_episode_data_from_event`). -/
structure EventData where
  episode_number : Option String
  episode_numbers : List String
  recording_date : Option Int
  studio : Option String
  guest_names : Option String
  notes : Option String
deriving DecidableEq

/-- Midnight of the calendar day containing `t`
(`recording_date.replace(hour=0, minute=0, second=0, microsecond=0)`). -/
def dayStart (t : Int) : Int := t - t % 1440

/-- The existing-row filter of the upsert: same podcast, same episode number,
recording date inside the same calendar day.  A null stored recording date
never satisfies the SQL comparison. -/
def matchesUpsert (pid : Nat) (num : String) (rd : Int) (e : Episode) : Bool :=
  e.podcast_id == pid && e.episode_number == some num &&
  (match e.recording_date with
   | some erd => decide (dayStart rd ≤ erd) && decide (erd < dayStart rd + 1440)
   | none => false)

/-- First update statement on a matched episode: set the recording date
unconditionally when the event carries one. -/
def applyDateUpdate (ev : EventData) (e : Episode) : Episode :=
  match ev.recording_date with
  | some rd => { e with recording_date := some rd }
  | none => e

/-- Fill the studio only when currently empty. -/
def applyStudioUpdate (ev : EventData) (e : Episode) : Episode :=
  if optTruthy ev.studio ∧ ¬ optTruthy e.studio then { e with studio := ev.studio } else e

/-- Fill the guest names only when currently empty. -/
def applyGuestUpdate (ev : EventData) (e : Episode) : Episode :=
  if optTruthy ev.guest_names ∧ ¬ optTruthy e.guest_names then
    { e with guest_names := ev.guest_names }
  else e

/-- Fill the episode notes only when currently empty. -/
def applyNotesUpdate (ev : EventData) (e : Episode) : Episode :=
  if optTruthy ev.notes ∧ ¬ optTruthy e.episode_notes then
    { e with episode_notes := ev.notes }
  else e

/-- The sequential field updates applied to a matched episode: recording date
unconditionally (when present), studio/guest names/notes only when the stored
field is empty. -/
def applyEventUpdate (ev : EventData) (e : Episode) : Episode :=
  applyNotesUpdate ev (applyGuestUpdate ev (applyStudioUpdate ev (applyDateUpdate ev e)))

/-- The fresh episode inserted when no row matches. -/
def newEpisodeFromEvent (db : DB) (ev : EventData) (podcast : Podcast) : Episode :=
  { id := db.nextEpisodeId
    podcast_id := podcast.id
    episode_number := ev.episode_number
    recording_date := ev.recording_date
    studio := ev.studio
    guest_names := ev.guest_names
    status := EpisodeStatus.not_started
    episode_notes := ev.notes
    recording_engineer_id := none
    editing_engineer_id := none
    reels_engineer_id := none
    reels_notes := none
    studio_settings_override := none
    client_approved_editing := "pending"
    client_approved_reels := "pending" }

/-- `create_or_update_episode_from_event` from `google_calendar.py`.  The
lookup runs only when the event carries a truthy episode number and a
recording date. -/
def create_or_update_episode_from_event (db : DB) (ev : EventData) (podcast : Podcast) :
    Option Episode × DB :=
  match (match ev.episode_number, ev.recording_date with
    | some num, some rd =>
      if num ≠ "" then db.episodes.find? (matchesUpsert podcast.id num rd) else none
    | _, _ => none) with
  | some e =>
    (some (applyEventUpdate ev e),
     { db with episodes := db.episodes.map (fun x => if x.id == e.id then applyEventUpdate ev e else x) })
  | none =>
    (some (newEpisodeFromEvent db ev podcast),
     { db with episodes := db.episodes ++ [newEpisodeFromEvent db ev podcast], nextEpisodeId := db.nextEpisodeId + 1 })

/-!
## Calendar ingestion loops

`sync_calendar_to_database` and the calendar branch of
`get_todays_episodes_from_calendar` share the same per-event body: skip
blank titles, resolve the podcast from the raw title (never creating one),
then upsert one episode per extracted episode number (or one number-less
episode).  The events are modelled as already extracted (`CalEvent` pairs the
raw summary with its `extract_episode_data_from_event` output). -/

structure CalEvent where
  summary : String
  data : EventData
deriving DecidableEq

/-- The per-event episode-number worklist:
`event_data.get('episode_numbers') or ([episode_number] if truthy else [])`,
then `[None]` when still empty. -/
def epNumsOf (d : EventData) : List (Option String) :=
  let ns : List (Option String) :=
    if d.episode_numbers ≠ [] then d.episode_numbers.map some
    else
      match d.episode_number with
      | some n => if n ≠ "" then [some n] else []
      | none => []
  if ns = [] then [none] else ns

/-- One iteration of the inner `for ep_num in ep_nums` loop of
`sync_calendar_to_database`: upsert the episode for one number and count it
when an Episode was produced. -/
def syncStep (podcast : Podcast) (d : EventData) (acc : Nat × DB)
    (ep_num : Option String) : Nat × DB :=
  match create_or_update_episode_from_event acc.2
      { d with episode_number := ep_num } podcast with
  | (some _, db2) => (acc.1 + 1, db2)
  | (none, db2) => (acc.1, db2)

/-- Loop body of `sync_calendar_to_database` for one event; returns the
number of episodes synced for that event. -/
def sync_one_event (db : DB) (event : CalEvent) : Nat × DB :=
  if strStrip event.summary = "" then (0, db)
  else
    match find_podcast_from_event_title db event.summary with
    | none => (0, db)
    | some podcast => (epNumsOf event.data).foldl (syncStep podcast event.data) (0, db)

/-- One iteration of the outer event loop of `sync_calendar_to_database`. -/
def syncEventStep (acc : Nat × DB) (ev : CalEvent) : Nat × DB :=
  (acc.1 + (sync_one_event acc.2 ev).1, (sync_one_event acc.2 ev).2)

/-- The event loop of `sync_calendar_to_database`. -/
def sync_calendar_to_database (db : DB) (events : List CalEvent) : Nat × DB :=
  events.foldl syncEventStep (0, db)

/-- One iteration of the inner loop of the calendar branch of
`get_todays_episodes_from_calendar`. -/
def todaysStep (podcast : Podcast) (d : EventData) (acc : List Episode × DB)
    (ep_num : Option String) : List Episode × DB :=
  match create_or_update_episode_from_event acc.2
      { d with episode_number := ep_num } podcast with
  | (some e, db2) => (acc.1 ++ [e], db2)
  | (none, db2) => (acc.1, db2)

/-- Loop body of the calendar branch of `get_todays_episodes_from_calendar`
for one event; returns the episodes processed for that event. -/
def todays_one_event (db : DB) (event : CalEvent) : List Episode × DB :=
  if strStrip event.summary = "" then ([], db)
  else
    match find_podcast_from_event_title db event.summary with
    | none => ([], db)
    | some podcast => (epNumsOf event.data).foldl (todaysStep podcast event.data) ([], db)

/-- One iteration of the outer event loop of
`get_todays_episodes_from_calendar`. -/
def todaysEventStep (acc : List Episode × DB) (ev : CalEvent) : List Episode × DB :=
  (acc.1 ++ (todays_one_event acc.2 ev).1, (todays_one_event acc.2 ev).2)

/-- The event loop of the calendar branch of
`get_todays_episodes_from_calendar`. -/
def get_todays_episodes_from_calendar (db : DB) (events : List CalEvent) :
    List Episode × DB :=
  events.foldl todaysEventStep ([], db)

/-!
## General list helpers -/

theorem find?_append_of_none {α : Type} {p : α → Bool} {l1 l2 : List α}
    (h : l1.find? p = none) : (l1 ++ l2).find? p = l2.find? p := by
  rw [List.find?_append, h, Option.none_or]

theorem find?_map_of_pred {α : Type} (g : α → α) (p : α → Bool)
    (hp : ∀ x, p (g x) = p x) (l : List α) :
    (l.map g).find? p = (l.find? p).map g := by
  induction l with
  | nil => rfl
  | cons a l ih =>
    by_cases ha : p a
    · rw [List.map_cons, List.find?_cons_of_pos _ (by rw [hp]; exact ha),
        List.find?_cons_of_pos _ ha]
      rfl
    · rw [List.map_cons, List.find?_cons_of_neg _ (by rw [hp]; exact ha),
        List.find?_cons_of_neg _ ha, ih]

theorem mem_singleton_of_length_le_one {α : Type} {l : List α} {a b : α}
    (hlen : l.length ≤ 1) (ha : a ∈ l) (hb : b ∈ l) : a = b := by
  match l with
  | [] => cases ha
  | [x] =>
    rw [List.mem_singleton] at ha hb
    rw [ha, hb]
  | x :: y :: t => simp at hlen

/-- Members of a list sharing an id are equal when the ids are nodup. -/
theorem eq_of_mem_of_id_eq {l : List Task} (hnd : (l.map Task.id).Nodup)
    {x y : Task} (hx : x ∈ l) (hy : y ∈ l) (h : x.id = y.id) : x = y :=
  List.inj_on_of_nodup_map hnd hx hy h

/-- With nodup ids, the find-by-id of a member is that member. -/
theorem find?_id_of_mem_nodup {l : List Task} {t : Task}
    (hmem : t ∈ l) (hnd : (l.map Task.id).Nodup) :
    l.find? (fun x => x.id == t.id) = some t := by
  induction l with
  | nil => cases hmem
  | cons a l ih =>
    rw [List.map_cons, List.nodup_cons] at hnd
    rcases List.mem_cons.mp hmem with rfl | hmem'
    · exact List.find?_cons_of_pos _ (by simp)
    · have hne : a.id ≠ t.id := fun he => hnd.1 (he ▸ List.mem_map_of_mem Task.id hmem')
      rw [List.find?_cons_of_neg _ (by simpa using hne)]
      exact ih hmem' hnd.2

theorem countPair_append (l1 l2 : List Task) (e : Nat) (ty : TaskType) :
    countPair (l1 ++ l2) e ty = countPair l1 e ty + countPair l2 e ty := by
  simp [countPair, List.filter_append]

theorem countPair_eq_zero_iff {l : List Task} {e : Nat} {ty : TaskType} :
    countPair l e ty = 0 ↔ ∀ t ∈ l, ¬(t.episode_id == e && t.type == ty) = true := by
  simp [countPair, List.length_eq_zero, List.filter_eq_nil_iff]

theorem findTaskOfType_eq_none_of_countPair_zero {l : List Task} {e : Nat} {ty : TaskType}
    (h : countPair l e ty = 0) : findTaskOfType l e ty = none := by
  exact List.find?_eq_none.mpr (countPair_eq_zero_iff.mp h)

theorem countPair_pos_of_find?_some {l : List Task} {e : Nat} {ty : TaskType} {t : Task}
    (h : findTaskOfType l e ty = some t) : 1 ≤ countPair l e ty := by
  have h' : l.find? (fun t => t.episode_id == e && t.type == ty) = some t := h
  have hmem : t ∈ l := List.mem_of_find?_eq_some h'
  have hp := List.find?_some h'
  have hf : t ∈ l.filter (fun t => t.episode_id == e && t.type == ty) :=
    List.mem_filter.mpr ⟨hmem, hp⟩
  exact List.length_pos.mpr (List.ne_nil_of_mem hf)

/-!
## Shape of the idempotent creation functions

Each `create_X_task` either returns the first existing task of the
(episode, type) pair unchanged, or appends one freshly built task of that
pair carrying the next free id.  `CreateShape` captures that common shape;
the shape lemmas below re-derive it from each definition. -/

def CreateShape (f : DB → Episode → Option Task × DB) (ty : TaskType)
    (db : DB) (ep : Episode) : Prop :=
  (∀ ex, findTaskOfType db.tasks ep.id ty = some ex → f db ep = (some ex, db)) ∧
  (findTaskOfType db.tasks ep.id ty = none →
    ∃ t : Task, f db ep = (some t, addTask db t) ∧ t.id = db.nextTaskId ∧
      t.episode_id = ep.id ∧ t.type = ty)

theorem create_studio_preparation_task_shape (now : Int) (db : DB) (ep : Episode) :
    CreateShape (create_studio_preparation_task now) TaskType.studio_preparation db ep := by
  constructor
  · intro ex hex
    simp [create_studio_preparation_task, hex]
  · intro hnone
    simp only [create_studio_preparation_task, hnone]
    exact ⟨_, rfl, rfl, rfl, rfl⟩

theorem create_recording_task_shape (now : Int) (db : DB) (ep : Episode) :
    CreateShape (create_recording_task now) TaskType.recording db ep := by
  constructor
  · intro ex hex
    simp [create_recording_task, hex]
  · intro hnone
    simp only [create_recording_task, hnone]
    exact ⟨_, rfl, rfl, rfl, rfl⟩

theorem create_editing_task_shape (db : DB) (ep : Episode) :
    CreateShape create_editing_task TaskType.editing db ep := by
  constructor
  · intro ex hex
    simp [create_editing_task, hex]
  · intro hnone
    simp only [create_editing_task, hnone]
    exact ⟨_, rfl, rfl, rfl, rfl⟩

theorem create_reels_task_shape (db : DB) (ep : Episode) :
    CreateShape create_reels_task TaskType.reels db ep := by
  constructor
  · intro ex hex
    simp [create_reels_task, hex]
  · intro hnone
    simp only [create_reels_task, hnone]
    exact ⟨_, rfl, rfl, rfl, rfl⟩

theorem create_publishing_task_shape (db : DB) (ep : Episode)
    (happr : ep.client_approved_editing = "approved" ∧ ep.client_approved_reels = "approved") :
    CreateShape create_publishing_task TaskType.publishing db ep := by
  constructor
  · intro ex hex
    simp [create_publishing_task, hex]
  · intro hnone
    simp only [create_publishing_task, hnone]
    rw [if_pos (And.intro happr.1 happr.2)]
    exact ⟨_, rfl, rfl, rfl, rfl⟩

/-- A freshly appended pair task is found by the pair query. -/
theorem pairPred_true {t : Task} {e : Nat} {ty : TaskType}
    (h1 : t.episode_id = e) (h2 : t.type = ty) :
    (t.episode_id == e && t.type == ty) = true := by
  simp [h1, h2]

/-- The target of the idempotence claim: both calls return the same task,
the second call leaves the store of the first untouched, and exactly one
task of the pair remains. -/
def CreateIdem (f : DB → Episode → Option Task × DB) (ty : TaskType)
    (db : DB) (ep : Episode) : Prop :=
  ∃ t : Task, (f db ep).1 = some t ∧ (f (f db ep).2 ep).1 = some t ∧
    (f (f db ep).2 ep).2 = (f db ep).2 ∧ countPair (f db ep).2.tasks ep.id ty = 1

theorem countPair_zero_of_find?_none {l : List Task} {e : Nat} {ty : TaskType}
    (hfind : findTaskOfType l e ty = none) : countPair l e ty = 0 := by
  rw [countPair_eq_zero_iff]
  intro x hx
  have := List.find?_eq_none.mp hfind x hx
  simpa using this

theorem createIdem_of_shape (f : DB → Episode → Option Task × DB) (ty : TaskType)
    (ep : Episode) (hshape : ∀ db : DB, CreateShape f ty db ep)
    (db : DB) (hcount : countPair db.tasks ep.id ty ≤ 1) : CreateIdem f ty db ep := by
  cases hfind : findTaskOfType db.tasks ep.id ty with
  | some ex =>
    have h1 : f db ep = (some ex, db) := (hshape db).1 ex hfind
    have h2 : f (f db ep).2 ep = (some ex, db) := by
      rw [h1]
      exact (hshape db).1 ex hfind
    refine ⟨ex, by rw [h1], by rw [h2], by rw [h2, h1], ?_⟩
    rw [h1]
    exact Nat.le_antisymm hcount (countPair_pos_of_find?_some hfind)
  | none =>
    obtain ⟨t, heq, hid, hep, hty⟩ := (hshape db).2 hfind
    have hpred : (t.episode_id == ep.id && t.type == ty) = true := pairPred_true hep hty
    have hfind2 : findTaskOfType (addTask db t).tasks ep.id ty = some t := by
      show ((db.tasks ++ [t]).find? _) = some t
      rw [find?_append_of_none hfind]
      exact List.find?_cons_of_pos _ hpred
    have h2 : f (f db ep).2 ep = (some t, addTask db t) := by
      rw [heq]
      exact (hshape (addTask db t)).1 t hfind2
    refine ⟨t, by rw [heq], by rw [h2], by rw [h2, heq], ?_⟩
    rw [heq]
    show countPair (db.tasks ++ [t]) ep.id ty = 1
    rw [countPair_append, countPair_zero_of_find?_none hfind]
    simp [countPair, hpred]

/-- The publishing creation branch taken when no task exists and both
approvals are `"approved"`: the created task has no due date, no assignee. -/
theorem create_publishing_task_creates (db : DB) (ep : Episode)
    (hfind : findTaskOfType db.tasks ep.id TaskType.publishing = none)
    (hE : ep.client_approved_editing = "approved")
    (hR : ep.client_approved_reels = "approved") :
    ∃ t : Task, create_publishing_task db ep = (some t, addTask db t) ∧
      t.id = db.nextTaskId ∧ t.episode_id = ep.id ∧ t.type = TaskType.publishing ∧
      t.due_date = none ∧ t.assigned_to = none ∧ t.status = TaskStatus.not_started := by
  simp only [create_publishing_task, hfind]
  rw [if_pos (And.intro hE hR)]
  exact ⟨_, rfl, rfl, rfl, rfl, rfl, rfl, rfl⟩

/-!
## Concrete fixtures used by witnesses and counterexamples -/

/-- A minimal concrete episode (approvals still pending). -/
def epX : Episode :=
  { id := 1, podcast_id := 1, episode_number := some "1", recording_date := some 5000,
    studio := none, guest_names := none, status := EpisodeStatus.not_started,
    episode_notes := none, recording_engineer_id := none, editing_engineer_id := none,
    reels_engineer_id := none, reels_notes := none, studio_settings_override := none,
    client_approved_editing := "pending", client_approved_reels := "pending" }

/-- A store holding only `epX` and no tasks. -/
def dbX : DB :=
  { podcasts := [], aliases := [], episodes := [epX], tasks := [],
    nextTaskId := 0, nextEpisodeId := 2 }

/-- An already existing publishing task for `epX`. -/
def pubTask : Task :=
  { id := 0, episode_id := 1, type := TaskType.publishing,
    status := TaskStatus.not_started, assigned_to := none, due_date := none,
    completed_at := none, notes := "" }

/-- `epX` after the client rejected both deliverables. -/
def epRej : Episode :=
  { epX with client_approved_editing := "rejected", client_approved_reels := "rejected" }

/-- A store in which the publishing task already exists (it was created while
both approvals were `"approved"`, before the rejection). -/
def dbPub : DB := { dbX with tasks := [pubTask], nextTaskId := 1 }

/-!
## C1 -/

/-- C1 counterexample: for the `publishing` task type with both approvals
still `"pending"`, calling `create_publishing_task` twice returns no task at
all and leaves zero tasks of the pair, so the claim quantified over *every*
task type fails at this input. -/
theorem create_task_idem_counterexample :
    ¬ CreateIdem create_publishing_task TaskType.publishing dbX epX := by
  rintro ⟨t, h1, -, -, -⟩
  have h : (create_publishing_task dbX epX).1 = none := by decide
  rw [h] at h1
  exact Option.noConfusion h1

/-- C1 (amended): starting from a store respecting the at-most-one-task-per-
(episode, type) invariant, each creation function called twice in sequence
returns the same task both times, the second call leaves the store unchanged,
and exactly one task of the pair remains — unconditionally for
studio-preparation, recording, editing and reels, and for publishing whenever
both client approvals are `"approved"`; publishing with approvals not both
approved returns null twice and creates nothing. -/
theorem create_task_functions_idempotent (now : Int) (db : DB) (ep : Episode) :
    (countPair db.tasks ep.id TaskType.studio_preparation ≤ 1 →
      CreateIdem (create_studio_preparation_task now) TaskType.studio_preparation db ep) ∧
    (countPair db.tasks ep.id TaskType.recording ≤ 1 →
      CreateIdem (create_recording_task now) TaskType.recording db ep) ∧
    (countPair db.tasks ep.id TaskType.editing ≤ 1 →
      CreateIdem create_editing_task TaskType.editing db ep) ∧
    (countPair db.tasks ep.id TaskType.reels ≤ 1 →
      CreateIdem create_reels_task TaskType.reels db ep) ∧
    (countPair db.tasks ep.id TaskType.publishing ≤ 1 →
      ep.client_approved_editing = "approved" → ep.client_approved_reels = "approved" →
      CreateIdem create_publishing_task TaskType.publishing db ep) ∧
    (countPair db.tasks ep.id TaskType.publishing = 0 →
      ¬(ep.client_approved_editing = "approved" ∧ ep.client_approved_reels = "approved") →
      create_publishing_task db ep = (none, db) ∧
      create_publishing_task (create_publishing_task db ep).2 ep = (none, db)) := by
  refine ⟨?_, ?_, ?_, ?_, ?_, ?_⟩
  · exact createIdem_of_shape _ _ ep
      (fun db => create_studio_preparation_task_shape now db ep) db
  · exact createIdem_of_shape _ _ ep
      (fun db => create_recording_task_shape now db ep) db
  · exact createIdem_of_shape _ _ ep (fun db => create_editing_task_shape db ep) db
  · exact createIdem_of_shape _ _ ep (fun db => create_reels_task_shape db ep) db
  · intro hcount hE hR
    exact createIdem_of_shape _ _ ep
      (fun db => create_publishing_task_shape db ep ⟨hE, hR⟩) db hcount
  · intro h0 hna
    have hfind := findTaskOfType_eq_none_of_countPair_zero h0
    have h1 : create_publishing_task db ep = (none, db) := by
      simp only [create_publishing_task, hfind]
      rw [if_neg hna]
    refine ⟨h1, ?_⟩
    rw [h1]
    exact h1

/-- C1 witness: the amended theorem applied to the concrete empty store. -/
theorem create_task_functions_idempotent_witness :
    CreateIdem (create_studio_preparation_task 0) TaskType.studio_preparation dbX epX :=
  (create_task_functions_idempotent 0 dbX epX).1 (by decide)

/-!
## C2 -/

/-- C2 counterexample: with a publishing task already on file (created while
both approvals were `"approved"`) and both approvals now `"rejected"`,
`create_publishing_task` returns that task, not null, although the approval
fields are not `"approved"` — refuting "returns null unless both approval
fields equal approved". -/
theorem publishing_gating_counterexample :
    epRej.client_approved_editing ≠ "approved" ∧
    epRej.client_approved_reels ≠ "approved" ∧
    (create_publishing_task dbPub epRej).1 ≠ none ∧
    (create_publishing_task dbPub epRej).2 = dbPub := by decide

/-- C2 (amended): when no publishing task exists yet for the episode,
`create_publishing_task` is a no-op returning null and creating nothing
unless both approval fields equal `"approved"` simultaneously; once both are
approved it creates exactly one publishing task with no due date and no
assignee, and a second invocation returns that same task and creates no
duplicate.  (When a publishing task already exists it is returned unchanged
and nothing is created.) -/
theorem publishing_gating (db : DB) (ep : Episode)
    (h0 : countPair db.tasks ep.id TaskType.publishing = 0) :
    (¬(ep.client_approved_editing = "approved" ∧ ep.client_approved_reels = "approved") →
      create_publishing_task db ep = (none, db)) ∧
    (ep.client_approved_editing = "approved" → ep.client_approved_reels = "approved" →
      ∃ t : Task, (create_publishing_task db ep).1 = some t ∧
        t.due_date = none ∧ t.assigned_to = none ∧ t.type = TaskType.publishing ∧
        t.episode_id = ep.id ∧
        countPair (create_publishing_task db ep).2.tasks ep.id TaskType.publishing = 1 ∧
        create_publishing_task (create_publishing_task db ep).2 ep =
          (some t, (create_publishing_task db ep).2)) := by
  have hfind := findTaskOfType_eq_none_of_countPair_zero h0
  constructor
  · intro hna
    simp only [create_publishing_task, hfind]
    rw [if_neg hna]
  · intro hE hR
    obtain ⟨t, heq, hid, hep, hty, hdue, hass, hst⟩ :=
      create_publishing_task_creates db ep hfind hE hR
    have hpred : (t.episode_id == ep.id && t.type == TaskType.publishing) = true :=
      pairPred_true hep hty
    have hfind2 : findTaskOfType (addTask db t).tasks ep.id TaskType.publishing = some t := by
      show ((db.tasks ++ [t]).find? _) = some t
      rw [find?_append_of_none hfind]
      exact List.find?_cons_of_pos _ hpred
    refine ⟨t, by rw [heq], hdue, hass, hty, hep, ?_, ?_⟩
    · rw [heq]
      show countPair (db.tasks ++ [t]) ep.id TaskType.publishing = 1
      rw [countPair_append, h0]
      simp [countPair, hpred]
    · rw [heq]
      show create_publishing_task (addTask db t) ep = (some t, addTask db t)
      simp [create_publishing_task, hfind2]

/-- C2 witness: the amended theorem applied to the concrete store with no
publishing task on file and approvals not both approved: a genuine no-op. -/
theorem publishing_gating_witness :
    create_publishing_task dbX epRej = (none, dbX) :=
  (publishing_gating dbX epRej (by decide)).1 (by decide)

/-!
## C3

Both approval-sync functions share one shape (`syncBody`); `sync_spec`
derives the claimed behaviour from that shape once, and the claim theorem
instantiates it for editing and for reels. -/

def syncBody (ty : TaskType) (appr : Episode → String) (now : Int) (db : DB)
    (ep : Episode) : DB :=
  match findTaskOfType db.tasks ep.id ty with
  | none => db
  | some task =>
    if appr ep = "approved" then
      if task.status ≠ TaskStatus.done then
        { db with tasks := updateTask db.tasks task.id (markDone now) }
      else db
    else if appr ep = "rejected" then
      if task.status = TaskStatus.done ∨ task.status = TaskStatus.sent_to_client then
        { db with tasks := updateTask db.tasks task.id markReopened }
      else db
    else db

theorem map_id_updateTask (l : List Task) (i : Nat) (f : Task → Task)
    (hf : ∀ x, (f x).id = x.id) :
    (updateTask l i f).map Task.id = l.map Task.id := by
  rw [updateTask, List.map_map]
  refine List.map_congr_left (fun a _ => ?_)
  by_cases ha : (a.id == i) = true
  · simp [Function.comp, ha, hf]
  · simp [Function.comp, ha]

/-- Predicate preservation under the pointwise update map. -/
theorem pred_update (f : Task → Task) (p : Task → Bool)
    (hf : ∀ x, p (f x) = p x) (i : Nat) (x : Task) :
    p (if x.id == i then f x else x) = p x := by
  split
  · exact hf x
  · rfl

theorem sync_spec (sync : Int → DB → Episode → DB) (ty : TaskType)
    (appr : Episode → String)
    (hdef : ∀ now db ep, sync now db ep = syncBody ty appr now db ep)
    (now now2 : Int) (db : DB) (ep : Episode) (t : Task)
    (hnd : (db.tasks.map Task.id).Nodup)
    (hfind : findTaskOfType db.tasks ep.id ty = some t) :
    (appr ep = "approved" → t.status ≠ TaskStatus.done →
      (sync now db ep).tasks.find? (fun x => x.id == t.id) = some (markDone now t)) ∧
    (appr ep = "rejected" →
      (t.status = TaskStatus.done ∨ t.status = TaskStatus.sent_to_client) →
      (sync now db ep).tasks.find? (fun x => x.id == t.id) = some (markReopened t)) ∧
    (appr ep = "rejected" → t.status ≠ TaskStatus.done →
      t.status ≠ TaskStatus.sent_to_client → sync now db ep = db) ∧
    (appr ep ≠ "approved" → appr ep ≠ "rejected" → sync now db ep = db) ∧
    (∀ epA epR : Episode, epA.id = ep.id → epR.id = ep.id →
      appr epA = "approved" → appr epR = "rejected" → t.status ≠ TaskStatus.done →
      (sync now2 (sync now db epA) epR).tasks.find? (fun x => x.id == t.id) =
        some (markReopened (markDone now t))) := by
  have hmem : t ∈ db.tasks := List.mem_of_find?_eq_some hfind
  have hfindId : db.tasks.find? (fun x => x.id == t.id) = some t :=
    find?_id_of_mem_nodup hmem hnd
  have hidpres : ∀ x, ((fun x => x.id == t.id) (if x.id == t.id then markDone now x else x)) =
      (fun x => x.id == t.id) x :=
    pred_update (markDone now) (fun x => x.id == t.id) (fun _ => rfl) t.id
  refine ⟨?_, ?_, ?_, ?_, ?_⟩
  · intro ha hs
    rw [hdef]
    simp only [syncBody, hfind]
    rw [if_pos ha, if_pos hs]
    show (updateTask db.tasks t.id (markDone now)).find? (fun x => x.id == t.id) =
      some (markDone now t)
    rw [updateTask, find?_map_of_pred _ _ hidpres, hfindId]
    simp
  · intro ha hs
    rw [hdef]
    simp only [syncBody, hfind]
    rw [if_neg (by rw [ha]; decide), if_pos ha, if_pos hs]
    show (updateTask db.tasks t.id markReopened).find? (fun x => x.id == t.id) =
      some (markReopened t)
    rw [updateTask, find?_map_of_pred _ _
      (pred_update markReopened (fun x => x.id == t.id) (fun _ => rfl) t.id), hfindId]
    simp
  · intro ha hs1 hs2
    rw [hdef]
    simp only [syncBody, hfind]
    rw [if_neg (by rw [ha]; decide), if_pos ha,
      if_neg (by rintro (h | h) <;> contradiction)]
  · intro ha hr
    rw [hdef]
    simp only [syncBody, hfind]
    rw [if_neg ha, if_neg hr]
  · intro epA epR hA hR haA haR hs
    have h1 : sync now db epA = { db with tasks := updateTask db.tasks t.id (markDone now) } := by
      rw [hdef]
      simp only [syncBody, hA, hfind]
      rw [if_pos haA, if_pos hs]
    have hpairpres : ∀ x,
        ((fun y => y.episode_id == ep.id && y.type == ty)
          (if x.id == t.id then markDone now x else x)) =
        (fun y => y.episode_id == ep.id && y.type == ty) x :=
      pred_update (markDone now) (fun y => y.episode_id == ep.id && y.type == ty)
        (fun _ => rfl) t.id
    have hfindPair : db.tasks.find? (fun y => y.episode_id == ep.id && y.type == ty) =
        some t := hfind
    have h2 : findTaskOfType (sync now db epA).tasks epR.id ty = some (markDone now t) := by
      rw [h1]
      show (updateTask db.tasks t.id (markDone now)).find?
        (fun y => y.episode_id == epR.id && y.type == ty) = some (markDone now t)
      rw [hR]
      rw [updateTask, find?_map_of_pred _ _ hpairpres, hfindPair]
      simp
    rw [hdef]
    simp only [syncBody, h2]
    rw [if_neg (by rw [haR]; decide), if_pos haR,
      if_pos (Or.inl (rfl : (markDone now t).status = TaskStatus.done) :
        (markDone now t).status = TaskStatus.done ∨
        (markDone now t).status = TaskStatus.sent_to_client)]
    show (updateTask (sync now db epA).tasks t.id markReopened).find?
      (fun x => x.id == t.id) = some (markReopened (markDone now t))
    rw [h1]
    show (updateTask (updateTask db.tasks t.id (markDone now)) t.id markReopened).find?
      (fun x => x.id == t.id) = some (markReopened (markDone now t))
    have hfindId2 : (updateTask db.tasks t.id (markDone now)).find?
        (fun x => x.id == t.id) = some (markDone now t) := by
      rw [updateTask, find?_map_of_pred _ _ hidpres, hfindId]
      simp
    rw [updateTask, find?_map_of_pred _ _
      (pred_update markReopened (fun x => x.id == t.id) (fun _ => rfl) t.id)]
    show Option.map _ ((updateTask db.tasks t.id (markDone now)).find? (fun x => x.id == t.id)) =
      some (markReopened (markDone now t))
    rw [hfindId2]
    simp
    intro h
    exact absurd rfl h

/-- C3: for an episode with an editing task, the sync marks that task done
with a non-null completion timestamp when the approval is `"approved"` (and
the task is not already done); with the approval `"rejected"` it resets a
task in status done or sent-to-client to in-progress with a null timestamp,
leaves a task in any other status unchanged, and the `"pending"` case changes
nothing; the approve-then-reject round trip ends with the task in-progress
and no timestamp.  The same holds for reels against the reels approval. -/
theorem approval_sync_round_trip (now now2 : Int) (db : DB) (ep : Episode) (t : Task)
    (hnd : (db.tasks.map Task.id).Nodup) :
    (findTaskOfType db.tasks ep.id TaskType.editing = some t →
      (ep.client_approved_editing = "approved" → t.status ≠ TaskStatus.done →
        (sync_editing_task_status now db ep).tasks.find? (fun x => x.id == t.id) =
          some (markDone now t)) ∧
      (ep.client_approved_editing = "rejected" →
        (t.status = TaskStatus.done ∨ t.status = TaskStatus.sent_to_client) →
        (sync_editing_task_status now db ep).tasks.find? (fun x => x.id == t.id) =
          some (markReopened t)) ∧
      (ep.client_approved_editing = "rejected" → t.status ≠ TaskStatus.done →
        t.status ≠ TaskStatus.sent_to_client → sync_editing_task_status now db ep = db) ∧
      (ep.client_approved_editing = "pending" → sync_editing_task_status now db ep = db) ∧
      (∀ epA epR : Episode, epA.id = ep.id → epR.id = ep.id →
        epA.client_approved_editing = "approved" → epR.client_approved_editing = "rejected" →
        t.status ≠ TaskStatus.done →
        (sync_editing_task_status now2 (sync_editing_task_status now db epA) epR).tasks.find?
          (fun x => x.id == t.id) = some (markReopened (markDone now t)))) ∧
    (findTaskOfType db.tasks ep.id TaskType.reels = some t →
      (ep.client_approved_reels = "approved" → t.status ≠ TaskStatus.done →
        (sync_reels_task_status now db ep).tasks.find? (fun x => x.id == t.id) =
          some (markDone now t)) ∧
      (ep.client_approved_reels = "rejected" →
        (t.status = TaskStatus.done ∨ t.status = TaskStatus.sent_to_client) →
        (sync_reels_task_status now db ep).tasks.find? (fun x => x.id == t.id) =
          some (markReopened t)) ∧
      (ep.client_approved_reels = "rejected" → t.status ≠ TaskStatus.done →
        t.status ≠ TaskStatus.sent_to_client → sync_reels_task_status now db ep = db) ∧
      (ep.client_approved_reels = "pending" → sync_reels_task_status now db ep = db) ∧
      (∀ epA epR : Episode, epA.id = ep.id → epR.id = ep.id →
        epA.client_approved_reels = "approved" → epR.client_approved_reels = "rejected" →
        t.status ≠ TaskStatus.done →
        (sync_reels_task_status now2 (sync_reels_task_status now db epA) epR).tasks.find?
          (fun x => x.id == t.id) = some (markReopened (markDone now t)))) := by
  constructor
  · intro hfind
    obtain ⟨c1, c2, c3, c4, c5⟩ := sync_spec sync_editing_task_status TaskType.editing
      (fun e => e.client_approved_editing) (fun _ _ _ => rfl) now now2 db ep t hnd hfind
    exact ⟨c1, c2, c3,
      fun hpend => c4 (by simp [hpend]) (by simp [hpend]), c5⟩
  · intro hfind
    obtain ⟨c1, c2, c3, c4, c5⟩ := sync_spec sync_reels_task_status TaskType.reels
      (fun e => e.client_approved_reels) (fun _ _ _ => rfl) now now2 db ep t hnd hfind
    exact ⟨c1, c2, c3,
      fun hpend => c4 (by simp [hpend]) (by simp [hpend]), c5⟩

/-- An editing task awaiting client approval. -/
def edTask : Task :=
  { id := 3, episode_id := 1, type := TaskType.editing,
    status := TaskStatus.sent_to_client, assigned_to := none, due_date := none,
    completed_at := none, notes := "" }

/-- `epX` with editing approved by the client. -/
def epEdApproved : Episode := { epX with client_approved_editing := "approved" }

/-- A store holding `epX` and its editing task. -/
def dbEd : DB := { dbX with tasks := [edTask], nextTaskId := 4 }

/-- C3 witness: an editing task in sent-to-client status is marked done with
timestamp when the client approves, at a concrete store. -/
theorem approval_sync_round_trip_witness :
    (sync_editing_task_status 7 dbEd epEdApproved).tasks.find?
      (fun x => x.id == edTask.id) = some (markDone 7 edTask) :=
  (((approval_sync_round_trip 7 0 dbEd epEdApproved edTask (by decide)).1
    (by decide)).1) rfl (by decide)

/-!
## C4

`process_task_status_change` on a newly done recording task sets the episode
to recorded and runs the episode handler, which completes the outstanding
studio-preparation task and ensures editing and reels tasks exist.  The
invariants below track the studio-preparation facts through the pipeline. -/

/-- Well-formed task store: primary keys are unique and below the counter. -/
def TasksWF (db : DB) : Prop :=
  (db.tasks.map Task.id).Nodup ∧ ∀ t ∈ db.tasks, t.id < db.nextTaskId

/-- Every studio-preparation task of the episode in `l` is done. -/
def StudioAllDone (e : Nat) (l : List Task) : Prop :=
  ∀ s ∈ l, s.episode_id = e → s.type = TaskType.studio_preparation →
    s.status = TaskStatus.done

/-- Every studio-preparation task of the episode that was not done in `src`
occurs in `l` marked done with timestamp `now`. -/
def StudioMarkedDone (now : Int) (src : List Task) (e : Nat) (l : List Task) : Prop :=
  ∀ s ∈ src, s.episode_id = e → s.type = TaskType.studio_preparation →
    s.status ≠ TaskStatus.done → markDone now s ∈ l

theorem any_map_of_pred {α : Type} (g : α → α) (p : α → Bool)
    (hp : ∀ x, p (g x) = p x) (l : List α) : (l.map g).any p = l.any p := by
  induction l with
  | nil => rfl
  | cons a l ih => simp [List.any_cons, hp, ih]

theorem updateTask_WF (db : DB) (i : Nat) (f : Task → Task)
    (hfid : ∀ x, (f x).id = x.id) (hWF : TasksWF db) :
    TasksWF { db with tasks := updateTask db.tasks i f } := by
  refine ⟨?_, ?_⟩
  · show ((updateTask db.tasks i f).map Task.id).Nodup
    rw [map_id_updateTask _ _ _ hfid]
    exact hWF.1
  · intro s hs
    obtain ⟨x, hx, rfl⟩ := List.mem_map.mp hs
    have : (if (x.id == i) = true then f x else x).id = x.id := by
      split
      · exact hfid x
      · rfl
    rw [this]
    exact hWF.2 x hx

theorem addTask_WF (db : DB) (t : Task) (hWF : TasksWF db)
    (hid : t.id = db.nextTaskId) : TasksWF (addTask db t) := by
  refine ⟨?_, ?_⟩
  · show ((db.tasks ++ [t]).map Task.id).Nodup
    rw [List.map_append]
    rw [List.nodup_append]
    refine ⟨hWF.1, List.nodup_singleton _, ?_⟩
    intro a ha hb
    obtain ⟨x, hx, rfl⟩ := List.mem_map.mp ha
    have hxlt := hWF.2 x hx
    simp only [List.map_cons, List.map_nil, List.mem_singleton] at hb
    omega
  · intro s hs
    show s.id < db.nextTaskId + 1
    rcases List.mem_append.mp hs with h | h
    · have := hWF.2 s h
      omega
    · rw [List.mem_singleton] at h
      subst h
      omega

theorem shape_WF {f : DB → Episode → Option Task × DB} {ty : TaskType} {db : DB}
    {ep : Episode} (hshape : CreateShape f ty db ep) (hWF : TasksWF db) :
    TasksWF (f db ep).2 := by
  cases hfind : findTaskOfType db.tasks ep.id ty with
  | some ex =>
    rw [hshape.1 ex hfind]
    exact hWF
  | none =>
    obtain ⟨t, heq, hid, -, -⟩ := hshape.2 hfind
    rw [heq]
    exact addTask_WF db t hWF hid

theorem hasPair_of_shape {f : DB → Episode → Option Task × DB} {ty : TaskType} {db : DB}
    {ep : Episode} (hshape : CreateShape f ty db ep) :
    hasPair ((f db ep).2).tasks ep.id ty = true := by
  cases hfind : findTaskOfType db.tasks ep.id ty with
  | some ex =>
    rw [hshape.1 ex hfind]
    have hfind' : db.tasks.find? (fun t => t.episode_id == ep.id && t.type == ty) =
      some ex := hfind
    have hp := List.find?_some hfind'
    exact List.any_eq_true.mpr ⟨ex, List.mem_of_find?_eq_some hfind', hp⟩
  | none =>
    obtain ⟨t, heq, -, hep2, hty⟩ := hshape.2 hfind
    rw [heq]
    show (db.tasks ++ [t]).any _ = true
    exact List.any_eq_true.mpr ⟨t, by simp, pairPred_true hep2 hty⟩

theorem shape_hasPair_mono {f : DB → Episode → Option Task × DB} {ty2 : TaskType} {db : DB}
    {ep : Episode} (hshape : CreateShape f ty2 db ep) (e : Nat) (ty : TaskType)
    (h : hasPair db.tasks e ty = true) : hasPair ((f db ep).2).tasks e ty = true := by
  cases hfind : findTaskOfType db.tasks ep.id ty2 with
  | some ex =>
    rw [hshape.1 ex hfind]
    exact h
  | none =>
    obtain ⟨t, heq, -, -, -⟩ := hshape.2 hfind
    rw [heq]
    show (db.tasks ++ [t]).any _ = true
    rw [List.any_append]
    simp [hasPair] at h
    simp [h]

theorem append_studio_preserved {l : List Task} {t : Task}
    (ht : t.type ≠ TaskType.studio_preparation) (e : Nat) (src : List Task) (now : Int)
    (hAll : StudioAllDone e l) (hMark : StudioMarkedDone now src e l) :
    StudioAllDone e (l ++ [t]) ∧ StudioMarkedDone now src e (l ++ [t]) := by
  constructor
  · intro s hs hsep hsty
    rcases List.mem_append.mp hs with h | h
    · exact hAll s h hsep hsty
    · rw [List.mem_singleton] at h
      subst h
      exact absurd hsty ht
  · intro s hs hsep hsty hst
    exact List.mem_append_left _ (hMark s hs hsep hsty hst)

theorem shape_studio_preserved {f : DB → Episode → Option Task × DB} {ty2 : TaskType}
    {db : DB} {ep : Episode} (hshape : CreateShape f ty2 db ep)
    (hty2 : ty2 ≠ TaskType.studio_preparation) (e : Nat) (src : List Task) (now : Int)
    (hAll : StudioAllDone e db.tasks) (hMark : StudioMarkedDone now src e db.tasks) :
    StudioAllDone e ((f db ep).2).tasks ∧ StudioMarkedDone now src e ((f db ep).2).tasks := by
  cases hfind : findTaskOfType db.tasks ep.id ty2 with
  | some ex =>
    rw [hshape.1 ex hfind]
    exact ⟨hAll, hMark⟩
  | none =>
    obtain ⟨t, heq, -, -, hty⟩ := hshape.2 hfind
    rw [heq]
    exact append_studio_preserved (hty ▸ hty2) e src now hAll hMark

theorem updateTask_studio_preserved {l : List Task} {tf : Task} (f : Task → Task)
    (hmem : tf ∈ l) (hnd : (l.map Task.id).Nodup)
    (htf : tf.type ≠ TaskType.studio_preparation)
    (hfty : ∀ x, (f x).type = x.type)
    (e : Nat) (src : List Task) (now : Int)
    (hAll : StudioAllDone e l) (hMark : StudioMarkedDone now src e l) :
    StudioAllDone e (updateTask l tf.id f) ∧ StudioMarkedDone now src e (updateTask l tf.id f) := by
  constructor
  · intro s hs hsep hsty
    obtain ⟨x, hx, rfl⟩ := List.mem_map.mp hs
    by_cases hxi : (x.id == tf.id) = true
    · rw [if_pos hxi] at hsep hsty ⊢
      rw [hfty] at hsty
      have hxid : x.id = tf.id := by simpa using hxi
      have : x = tf := eq_of_mem_of_id_eq hnd hx hmem hxid
      rw [this] at hsty
      exact absurd hsty htf
    · rw [if_neg hxi] at hsep hsty ⊢
      exact hAll x hx hsep hsty
  · intro s hs hsep hsty hst
    have hm := hMark s hs hsep hsty hst
    have hidne : (markDone now s).id ≠ tf.id := by
      intro hid
      have : markDone now s = tf := eq_of_mem_of_id_eq hnd hm hmem hid
      have hty : (markDone now s).type = s.type := rfl
      rw [this] at hty
      rw [← hty] at hsty
      exact htf hsty
    have heq : (fun x => if (x.id == tf.id) = true then f x else x) (markDone now s) =
        markDone now s := by
      show (if ((markDone now s).id == tf.id) = true then f (markDone now s)
        else markDone now s) = markDone now s
      rw [if_neg (by simpa using hidne)]
    have hmm : (fun x => if (x.id == tf.id) = true then f x else x) (markDone now s) ∈
        updateTask l tf.id f := List.mem_map_of_mem _ hm
    rwa [heq] at hmm

theorem hasPair_updateTask (l : List Task) (i : Nat) (f : Task → Task)
    (hfe : ∀ x, (f x).episode_id = x.episode_id) (hft : ∀ x, (f x).type = x.type)
    (e : Nat) (ty : TaskType) :
    hasPair (updateTask l i f) e ty = hasPair l e ty := by
  refine any_map_of_pred _ (fun x => x.episode_id == e && x.type == ty) (fun x => ?_) l
  refine pred_update f (fun x => x.episode_id == e && x.type == ty) (fun y => ?_) i x
  show ((f y).episode_id == e && (f y).type == ty) = (y.episode_id == e && y.type == ty)
  rw [hfe y, hft y]

theorem WF_of_ids_eq {db db2 : DB} (hids : db2.tasks.map Task.id = db.tasks.map Task.id)
    (hnext : db2.nextTaskId = db.nextTaskId) (hWF : TasksWF db) : TasksWF db2 := by
  refine ⟨by rw [hids]; exact hWF.1, ?_⟩
  intro s hs
  have hsid : s.id ∈ db2.tasks.map Task.id := List.mem_map_of_mem _ hs
  rw [hids] at hsid
  obtain ⟨x, hx, hxe⟩ := List.mem_map.mp hsid
  rw [hnext, ← hxe]
  exact hWF.2 x hx

/-- Frame facts of `syncBody`: task ids, id counter, episodes and pair
membership are untouched. -/
theorem syncBody_frame (ty2 : TaskType) (appr : Episode → String) (now2 : Int)
    (db : DB) (ep2 : Episode) :
    (syncBody ty2 appr now2 db ep2).tasks.map Task.id = db.tasks.map Task.id ∧
    (syncBody ty2 appr now2 db ep2).nextTaskId = db.nextTaskId ∧
    (syncBody ty2 appr now2 db ep2).episodes = db.episodes ∧
    (∀ e ty, hasPair (syncBody ty2 appr now2 db ep2).tasks e ty = hasPair db.tasks e ty) := by
  unfold syncBody
  split
  · exact ⟨rfl, rfl, rfl, fun _ _ => rfl⟩
  · split
    · split
      · exact ⟨map_id_updateTask _ _ (markDone now2) (fun _ => rfl), rfl, rfl,
          fun e ty => hasPair_updateTask _ _ (markDone now2) (fun _ => rfl)
            (fun _ => rfl) e ty⟩
      · exact ⟨rfl, rfl, rfl, fun _ _ => rfl⟩
    · split
      · split
        · exact ⟨map_id_updateTask _ _ markReopened (fun _ => rfl), rfl, rfl,
            fun e ty => hasPair_updateTask _ _ markReopened (fun _ => rfl)
              (fun _ => rfl) e ty⟩
        · exact ⟨rfl, rfl, rfl, fun _ _ => rfl⟩
      · exact ⟨rfl, rfl, rfl, fun _ _ => rfl⟩

/-- The studio-preparation invariants survive a sync of a non-studio task
type (the updated task, when any, has the sync type, hence a distinct id). -/
theorem syncBody_studio_preserved (ty2 : TaskType) (appr : Episode → String) (now2 : Int)
    (db : DB) (ep2 : Episode) (hty2 : ty2 ≠ TaskType.studio_preparation)
    (hnd : (db.tasks.map Task.id).Nodup)
    (e : Nat) (src : List Task) (now : Int)
    (hAll : StudioAllDone e db.tasks) (hMark : StudioMarkedDone now src e db.tasks) :
    StudioAllDone e (syncBody ty2 appr now2 db ep2).tasks ∧
    StudioMarkedDone now src e (syncBody ty2 appr now2 db ep2).tasks := by
  unfold syncBody
  cases hfind : findTaskOfType db.tasks ep2.id ty2 with
  | none =>
    simp only [hfind]
    exact ⟨hAll, hMark⟩
  | some tf =>
    simp only [hfind]
    have hfind' : db.tasks.find? (fun t => t.episode_id == ep2.id && t.type == ty2) =
      some tf := hfind
    have hq := List.find?_some hfind'
    have htfmem := List.mem_of_find?_eq_some hfind'
    have htfty : tf.type = ty2 := by
      simp only [Bool.and_eq_true, beq_iff_eq] at hq
      exact hq.2
    have htfns : tf.type ≠ TaskType.studio_preparation := by
      rw [htfty]
      exact hty2
    split
    · split
      · exact updateTask_studio_preserved (markDone now2) htfmem hnd htfns
          (fun _ => rfl) e src now hAll hMark
      · exact ⟨hAll, hMark⟩
    · split
      · split
        · exact updateTask_studio_preserved markReopened htfmem hnd htfns
            (fun _ => rfl) e src now hAll hMark
        · exact ⟨hAll, hMark⟩
      · exact ⟨hAll, hMark⟩

theorem sync_editing_eq_body (now : Int) (db : DB) (ep : Episode) :
    sync_editing_task_status now db ep =
      syncBody TaskType.editing (fun e => e.client_approved_editing) now db ep := rfl

theorem sync_reels_eq_body (now : Int) (db : DB) (ep : Episode) :
    sync_reels_task_status now db ep =
      syncBody TaskType.reels (fun e => e.client_approved_reels) now db ep := rfl

theorem episodes_eq_of_shape {f : DB → Episode → Option Task × DB} {ty : TaskType}
    {db : DB} {ep : Episode} (hshape : CreateShape f ty db ep) :
    ((f db ep).2).episodes = db.episodes := by
  cases hfind : findTaskOfType db.tasks ep.id ty with
  | some ex => rw [hshape.1 ex hfind]
  | none =>
    obtain ⟨t, heq, -, -, -⟩ := hshape.2 hfind
    rw [heq]
    rfl

/-- `auto_complete_studio_preparation` establishes the studio invariants:
afterwards every studio-preparation task of the episode is done, and a
formerly outstanding one reappears marked done with the given timestamp.
Ids, counter and episodes are untouched. -/
theorem auto_complete_establishes (now : Int) (db : DB) (ep2 : Episode)
    (hcount : countPair db.tasks ep2.id TaskType.studio_preparation ≤ 1) :
    StudioAllDone ep2.id (auto_complete_studio_preparation now db ep2).tasks ∧
    StudioMarkedDone now db.tasks ep2.id (auto_complete_studio_preparation now db ep2).tasks ∧
    (auto_complete_studio_preparation now db ep2).tasks.map Task.id = db.tasks.map Task.id ∧
    (auto_complete_studio_preparation now db ep2).nextTaskId = db.nextTaskId ∧
    (auto_complete_studio_preparation now db ep2).episodes = db.episodes := by
  unfold auto_complete_studio_preparation
  cases hfind : db.tasks.find? (fun t =>
      t.episode_id == ep2.id && t.type == TaskType.studio_preparation &&
      t.status != TaskStatus.done) with
  | none =>
    simp only [hfind]
    refine ⟨?_, ?_, by trivial, by trivial, by trivial⟩
    · intro s hs hsep hsty
      have hq := List.find?_eq_none.mp hfind s hs
      by_contra hne
      exact hq (by simp [hsep, hsty, hne])
    · intro s hs hsep hsty hst
      exact absurd (by simp [hsep, hsty, hst]) (List.find?_eq_none.mp hfind s hs)
  | some s0 =>
    simp only [hfind]
    have hq := List.find?_some hfind
    have hs0mem := List.mem_of_find?_eq_some hfind
    simp only [Bool.and_eq_true, beq_iff_eq, bne_iff_ne] at hq
    have huniq : ∀ x ∈ db.tasks, x.episode_id = ep2.id →
        x.type = TaskType.studio_preparation → x = s0 := by
      intro x hx hxe hxt
      have hxf : x ∈ db.tasks.filter
          (fun t => t.episode_id == ep2.id && t.type == TaskType.studio_preparation) :=
        List.mem_filter.mpr ⟨hx, pairPred_true hxe hxt⟩
      have hs0f : s0 ∈ db.tasks.filter
          (fun t => t.episode_id == ep2.id && t.type == TaskType.studio_preparation) :=
        List.mem_filter.mpr ⟨hs0mem, pairPred_true hq.1.1 hq.1.2⟩
      exact mem_singleton_of_length_le_one hcount hxf hs0f
    refine ⟨?_, ?_, map_id_updateTask _ _ (markDone now) (fun _ => rfl),
      by trivial, by trivial⟩
    · intro s hs hsep hsty
      obtain ⟨x, hx, rfl⟩ := List.mem_map.mp hs
      by_cases hxi : (x.id == s0.id) = true
      · rw [if_pos hxi] at hsep hsty ⊢
        rfl
      · rw [if_neg hxi] at hsep hsty ⊢
        have : x = s0 := huniq x hx hsep hsty
        rw [this] at hxi
        simp at hxi
    · intro s hs hsep hsty hst
      have hss0 : s = s0 := huniq s hs hsep hsty
      have hsid : (s.id == s0.id) = true := by rw [hss0]; simp
      have hmm : (fun x => if (x.id == s0.id) = true then markDone now x else x) s ∈
          updateTask db.tasks s0.id (markDone now) := List.mem_map_of_mem _ hs
      have heq2 : (fun x => if (x.id == s0.id) = true then markDone now x else x) s =
          markDone now s := by
        show (if (s.id == s0.id) = true then markDone now s else s) = markDone now s
        rw [if_pos hsid]
      rwa [heq2] at hmm

/-- Frame and preservation facts of `create_publishing_task`. -/
theorem create_publishing_frame (db : DB) (ep2 : Episode) :
    ((create_publishing_task db ep2).2).episodes = db.episodes ∧
    (∀ e ty, hasPair db.tasks e ty = true →
      hasPair ((create_publishing_task db ep2).2).tasks e ty = true) ∧
    (∀ e src now, StudioAllDone e db.tasks → StudioMarkedDone now src e db.tasks →
      StudioAllDone e ((create_publishing_task db ep2).2).tasks ∧
      StudioMarkedDone now src e ((create_publishing_task db ep2).2).tasks) := by
  unfold create_publishing_task
  split
  · exact ⟨rfl, fun _ _ h => h, fun e src now a m => ⟨a, m⟩⟩
  · split
    · refine ⟨rfl, ?_, ?_⟩
      · intro e ty h
        show (db.tasks ++ [_]).any _ = true
        rw [List.any_append]
        have h' : db.tasks.any (fun t => t.episode_id == e && t.type == ty) = true := h
        simp [h']
      · intro e src now a m
        exact append_studio_preserved (by intro h; exact TaskType.noConfusion h) e src now a m
    · exact ⟨rfl, fun _ _ h => h, fun e src now a m => ⟨a, m⟩⟩

/-- Effect of `process_episode_status_change` on a recorded episode: editing
and reels tasks exist afterwards, every studio-preparation task of the
episode is done, a formerly outstanding one is marked done with the current
timestamp, and the episodes table is untouched. -/
theorem process_episode_recorded_spec (now : Int) (db : DB) (ep : Episode)
    (hrec : ep.status = EpisodeStatus.recorded) (hWF : TasksWF db)
    (hcount : countPair db.tasks ep.id TaskType.studio_preparation ≤ 1) :
    hasPair (process_episode_status_change now db ep).tasks ep.id TaskType.editing = true ∧
    hasPair (process_episode_status_change now db ep).tasks ep.id TaskType.reels = true ∧
    StudioAllDone ep.id (process_episode_status_change now db ep).tasks ∧
    StudioMarkedDone now db.tasks ep.id (process_episode_status_change now db ep).tasks ∧
    (process_episode_status_change now db ep).episodes = db.episodes := by
  unfold process_episode_status_change
  rw [if_pos hrec]
  set dbA := auto_complete_studio_preparation now db ep with hdbA
  set dbB := (create_editing_task dbA ep).2 with hdbB
  set dbC := (create_reels_task dbB ep).2 with hdbC
  set dbD := sync_editing_task_status now dbC ep with hdbD
  set dbE := sync_reels_task_status now dbD ep with hdbE
  obtain ⟨A_all, A_mark, A_ids, A_next, A_eps⟩ :=
    auto_complete_establishes now db ep hcount
  have A_WF : TasksWF dbA := WF_of_ids_eq A_ids A_next hWF
  have shB := create_editing_task_shape dbA ep
  have B_hasEd : hasPair dbB.tasks ep.id TaskType.editing = true := hasPair_of_shape shB
  have B_studio := shape_studio_preserved shB
    (by intro h; exact TaskType.noConfusion h) ep.id db.tasks now A_all A_mark
  have B_WF : TasksWF dbB := shape_WF shB A_WF
  have B_eps : dbB.episodes = dbA.episodes := episodes_eq_of_shape shB
  have shC := create_reels_task_shape dbB ep
  have C_hasEd : hasPair dbC.tasks ep.id TaskType.editing = true :=
    shape_hasPair_mono shC _ _ B_hasEd
  have C_hasRe : hasPair dbC.tasks ep.id TaskType.reels = true := hasPair_of_shape shC
  have C_studio := shape_studio_preserved shC
    (by intro h; exact TaskType.noConfusion h) ep.id db.tasks now B_studio.1 B_studio.2
  have C_WF : TasksWF dbC := shape_WF shC B_WF
  have C_eps : dbC.episodes = dbB.episodes := episodes_eq_of_shape shC
  have frameD := syncBody_frame TaskType.editing (fun e => e.client_approved_editing) now dbC ep
  have hDbody : dbD = syncBody TaskType.editing (fun e => e.client_approved_editing)
      now dbC ep := hdbD.trans (sync_editing_eq_body now dbC ep)
  have D_hasEd : hasPair dbD.tasks ep.id TaskType.editing = true := by
    rw [hDbody, frameD.2.2.2]
    exact C_hasEd
  have D_hasRe : hasPair dbD.tasks ep.id TaskType.reels = true := by
    rw [hDbody, frameD.2.2.2]
    exact C_hasRe
  have D_studio : StudioAllDone ep.id dbD.tasks ∧
      StudioMarkedDone now db.tasks ep.id dbD.tasks := by
    rw [hDbody]
    exact syncBody_studio_preserved TaskType.editing _ now dbC ep
      (by intro h; exact TaskType.noConfusion h) C_WF.1 ep.id db.tasks now
      C_studio.1 C_studio.2
  have D_WF : TasksWF dbD := by
    rw [hDbody]
    exact WF_of_ids_eq frameD.1 frameD.2.1 C_WF
  have D_eps : dbD.episodes = dbC.episodes := by
    rw [hDbody]
    exact frameD.2.2.1
  have frameE := syncBody_frame TaskType.reels (fun e => e.client_approved_reels) now dbD ep
  have hEbody : dbE = syncBody TaskType.reels (fun e => e.client_approved_reels)
      now dbD ep := hdbE.trans (sync_reels_eq_body now dbD ep)
  have E_hasEd : hasPair dbE.tasks ep.id TaskType.editing = true := by
    rw [hEbody, frameE.2.2.2]
    exact D_hasEd
  have E_hasRe : hasPair dbE.tasks ep.id TaskType.reels = true := by
    rw [hEbody, frameE.2.2.2]
    exact D_hasRe
  have E_studio : StudioAllDone ep.id dbE.tasks ∧
      StudioMarkedDone now db.tasks ep.id dbE.tasks := by
    rw [hEbody]
    exact syncBody_studio_preserved TaskType.reels _ now dbD ep
      (by intro h; exact TaskType.noConfusion h) D_WF.1 ep.id db.tasks now
      D_studio.1 D_studio.2
  have E_eps : dbE.episodes = dbD.episodes := by
    rw [hEbody]
    exact frameE.2.2.1
  have frameP := create_publishing_frame dbE ep
  refine ⟨frameP.2.1 ep.id TaskType.editing E_hasEd,
    frameP.2.1 ep.id TaskType.reels E_hasRe,
    (frameP.2.2 ep.id db.tasks now E_studio.1 E_studio.2).1,
    (frameP.2.2 ep.id db.tasks now E_studio.1 E_studio.2).2, ?_⟩
  rw [frameP.1, E_eps, D_eps, C_eps, B_eps, A_eps]

/-- C4: `process_task_status_change` does nothing when the old status was
already done or the new status is not done; on a newly done
studio-preparation task it creates the recording task; on a newly done
recording task it sets the owning episode to recorded and re-invokes the
episode handler, which ensures editing and reels tasks exist, marks the
outstanding studio-preparation task done with a completion timestamp, and
leaves every studio-preparation task of the episode done. -/
theorem task_done_cascade (now : Int) (db : DB) (task : Task)
    (old_status : TaskStatus) (ep : Episode) :
    (old_status = TaskStatus.done →
      process_task_status_change now db task old_status = db) ∧
    (task.status ≠ TaskStatus.done →
      process_task_status_change now db task old_status = db) ∧
    (old_status ≠ TaskStatus.done → task.status = TaskStatus.done →
      db.episodes.find? (fun e => e.id == task.episode_id) = some ep →
      (task.type = TaskType.studio_preparation →
        hasPair (process_task_status_change now db task old_status).tasks ep.id
          TaskType.recording = true) ∧
      (task.type = TaskType.recording → TasksWF db →
        countPair db.tasks ep.id TaskType.studio_preparation ≤ 1 →
        (process_task_status_change now db task old_status).episodes.find?
            (fun e => e.id == ep.id) =
          some { ep with status := EpisodeStatus.recorded } ∧
        hasPair (process_task_status_change now db task old_status).tasks ep.id
          TaskType.editing = true ∧
        hasPair (process_task_status_change now db task old_status).tasks ep.id
          TaskType.reels = true ∧
        (∀ s ∈ db.tasks, s.episode_id = ep.id → s.type = TaskType.studio_preparation →
          s.status ≠ TaskStatus.done →
          markDone now s ∈ (process_task_status_change now db task old_status).tasks) ∧
        (∀ s ∈ (process_task_status_change now db task old_status).tasks,
          s.episode_id = ep.id → s.type = TaskType.studio_preparation →
          s.status = TaskStatus.done))) := by
  refine ⟨?_, ?_, ?_⟩
  · intro h
    simp [process_task_status_change, h]
  · intro h
    by_cases hold : old_status = TaskStatus.done
    · simp [process_task_status_change, hold]
    · simp [process_task_status_change, hold, h]
  · intro hold htask hep
    have hproc : process_task_status_change now db task old_status =
        (if task.type = TaskType.studio_preparation then
          (create_recording_task now db ep).2
        else if task.type = TaskType.recording then
          process_episode_status_change now
            { db with episodes := db.episodes.map (fun e =>
                if e.id == ep.id then { ep with status := EpisodeStatus.recorded }
                else e) }
            { ep with status := EpisodeStatus.recorded }
        else db) := by
      unfold process_task_status_change
      rw [if_neg hold, if_neg (not_not_intro htask), hep]
    constructor
    · intro hstudio
      rw [hproc, if_pos hstudio]
      exact hasPair_of_shape (create_recording_task_shape now db ep)
    · intro hrec hWF hcount
      rw [hproc, if_neg (by rw [hrec]; intro h; exact TaskType.noConfusion h),
        if_pos hrec]
      have hWF' : TasksWF { db with episodes := db.episodes.map (fun e =>
          if e.id == ep.id then { ep with status := EpisodeStatus.recorded }
          else e) } := hWF
      have spec := process_episode_recorded_spec now
        { db with episodes := db.episodes.map (fun e =>
            if e.id == ep.id then { ep with status := EpisodeStatus.recorded }
            else e) }
        { ep with status := EpisodeStatus.recorded } rfl hWF' hcount
      have hidEq : ep.id = task.episode_id := by
        have h := List.find?_some hep
        simpa using h
      have hpres : ∀ x : Episode,
          ((fun e : Episode => e.id == ep.id)
            (if (x.id == ep.id) = true then { ep with status := EpisodeStatus.recorded }
             else x)) = (fun e : Episode => e.id == ep.id) x := by
        intro x
        by_cases hx : (x.id == ep.id) = true
        · rw [if_pos hx]
          show (ep.id == ep.id) = (x.id == ep.id)
          rw [hx]
          simp
        · rw [if_neg hx]
      have hep2 : db.episodes.find? (fun e => e.id == ep.id) = some ep := by
        rw [hidEq]
        exact hep
      have hfmap : (db.episodes.map (fun e =>
          if e.id == ep.id then { ep with status := EpisodeStatus.recorded } else e)).find?
            (fun e => e.id == ep.id) =
          some { ep with status := EpisodeStatus.recorded } := by
        rw [find?_map_of_pred _ (fun e : Episode => e.id == ep.id) hpres, hep2]
        simp
      refine ⟨?_, spec.1, spec.2.1, spec.2.2.2.1, spec.2.2.1⟩
      rw [spec.2.2.2.2]
      exact hfmap

/-- A recording task for `epX`, just marked done. -/
def recTask : Task :=
  { id := 0, episode_id := 1, type := TaskType.recording, status := TaskStatus.done,
    assigned_to := none, due_date := none, completed_at := none, notes := "" }

/-- A store holding `epX` and its newly done recording task. -/
def dbRec : DB :=
  { podcasts := [], aliases := [], episodes := [epX], tasks := [recTask],
    nextTaskId := 1, nextEpisodeId := 2 }

/-- C4 witness: completing the concrete recording task produces an editing
task for its episode. -/
theorem task_done_cascade_witness :
    hasPair (process_task_status_change 9 dbRec recTask TaskStatus.in_progress).tasks
      epX.id TaskType.editing = true :=
  (((task_done_cascade 9 dbRec recTask TaskStatus.in_progress epX).2.2
      (by decide) (by decide) (by decide)).2 rfl ⟨by decide, by decide⟩ (by decide)).2.1

/-!
## C5

Membership in the accumulated `episode_numbers` list is monotone along every
pass, and the range pass inserts all integers of a sane range. -/

theorem mem_addUnique_self (l : List String) (g : String) : g ∈ addUnique l g := by
  unfold addUnique
  split
  · assumption
  · exact List.mem_append_right _ (List.mem_singleton_self g)

theorem mem_addUnique_mono {l : List String} {x : String} (h : x ∈ l) (g : String) :
    x ∈ addUnique l g := by
  unfold addUnique
  split
  · exact h
  · exact List.mem_append_left _ h

theorem mem_foldl_addUnique_mono {x : String} :
    ∀ (gs : List String) (l : List String), x ∈ l → x ∈ gs.foldl addUnique l
  | [], _, h => h
  | g :: gs, _, h => mem_foldl_addUnique_mono gs _ (mem_addUnique_mono h g)

theorem mem_foldl_addUnique_of_mem {g : String} :
    ∀ (gs : List String) (l : List String), g ∈ gs → g ∈ gs.foldl addUnique l
  | [], _, h => absurd h (List.not_mem_nil g)
  | g' :: gs, l, h => by
    rcases List.mem_cons.mp h with rfl | h'
    · exact mem_foldl_addUnique_mono gs _ (mem_addUnique_self l g)
    · exact mem_foldl_addUnique_of_mem gs _ h'

theorem mem_pairStep_mono {l : List String} {x : String} (h : x ∈ l)
    (p : String × String) : x ∈ pairStep l p :=
  mem_addUnique_mono (mem_addUnique_mono h p.1) p.2

theorem mem_rangeStep_mono {l : List String} {x : String} (h : x ∈ l)
    (p : String × String) : x ∈ rangeStep l p := by
  unfold rangeStep
  split
  · exact mem_foldl_addUnique_mono _ _ h
  · split
    · exact mem_addUnique_mono (mem_addUnique_mono h _) _
    · exact h

theorem mem_foldl_pairStep_mono {x : String} :
    ∀ (ps : List (String × String)) (l : List String), x ∈ l → x ∈ ps.foldl pairStep l
  | [], _, h => h
  | p :: ps, _, h => mem_foldl_pairStep_mono ps _ (mem_pairStep_mono h p)

theorem mem_foldl_rangeStep_mono {x : String} :
    ∀ (ps : List (String × String)) (l : List String), x ∈ l → x ∈ ps.foldl rangeStep l
  | [], _, h => h
  | p :: ps, _, h => mem_foldl_rangeStep_mono ps _ (mem_rangeStep_mono h p)

/-- A sane range pair inserts the decimal form of every integer it spans. -/
theorem rangeStep_adds {l : List String} {p : String × String}
    (hle : natOfDigits p.1 ≤ natOfDigits p.2)
    (hspan : natOfDigits p.2 - natOfDigits p.1 ≤ 10)
    {k : Nat} (hk1 : natOfDigits p.1 ≤ k) (hk2 : k ≤ natOfDigits p.2) :
    toString k ∈ rangeStep l p := by
  unfold rangeStep
  rw [if_pos (And.intro hle hspan)]
  apply mem_foldl_addUnique_of_mem
  refine List.mem_map.mpr ⟨k - natOfDigits p.1, ?_, ?_⟩
  · exact List.mem_range.mpr (by omega)
  · congr 1
    omega

theorem mem_foldl_rangeStep_of_mem {a b : String} :
    ∀ (ps : List (String × String)) (l : List String), (a, b) ∈ ps →
    natOfDigits a ≤ natOfDigits b → natOfDigits b - natOfDigits a ≤ 10 →
    ∀ k : Nat, natOfDigits a ≤ k → k ≤ natOfDigits b →
    toString k ∈ ps.foldl rangeStep l
  | [], _, h, _, _, _, _, _ => absurd h (List.not_mem_nil _)
  | p :: ps, l, h, hle, hspan, k, hk1, hk2 => by
    rcases List.mem_cons.mp h with heq | h'
    · subst heq
      exact mem_foldl_rangeStep_mono ps _ (rangeStep_adds hle hspan hk1 hk2)
    · exact mem_foldl_rangeStep_of_mem ps _ h' hle hspan k hk1 hk2

/-- C5 counterexample: the claim says a range with span greater than 10
falls back to adding just N and M, so for "Show 20-40" both "20" and "40"
should appear; in fact "20" does not (only the trailing number "40" is
picked up by the single-number fallback). -/
theorem range_expansion_counterexample :
    ¬("20" ∈ parse_event_title_numbers "Show 20-40" ∧
      "40" ∈ parse_event_title_numbers "Show 20-40") := by decide

/-- C5 (amended): a range N-M found by the range pass with N ≤ M and span at
most 10 contributes every integer of [N, M] to `episode_numbers`; a range
with span greater than 10 or N > M contributes nothing at all (the `elif`
fallback of the source is unreachable), so of "Show 20-40" only the trailing
"40" is extracted, by the single-number fallback. -/
theorem range_expansion :
    (∀ (title a b : String),
      (a, b) ∈ finditerPairs (tryPairAt matchRangeSep) title.data →
      natOfDigits a ≤ natOfDigits b → natOfDigits b - natOfDigits a ≤ 10 →
      ∀ k : Nat, natOfDigits a ≤ k → k ≤ natOfDigits b →
      toString k ∈ parse_event_title_numbers title) ∧
    (∀ (l : List String) (p : String × String),
      ¬(natOfDigits p.1 ≤ natOfDigits p.2 ∧ natOfDigits p.2 - natOfDigits p.1 ≤ 10) →
      rangeStep l p = l) ∧
    parse_event_title_numbers "Show 20-40" = ["40"] := by
  refine ⟨?_, ?_, by decide⟩
  · intro title a b hmem hle hspan k hk1 hk2
    by_cases htitle : title = ""
    · subst htitle
      simp [finditerPairs, finditerPairsAux] at hmem
    · unfold parse_event_title_numbers
      rw [if_neg htitle]
      have hk : toString k ∈ (finditerLabels title.data).foldl addUnique
          ((finditerPairs (tryPairAt matchHebrewSep) title.data).foldl pairStep
            ((finditerPairs (tryPairAt matchRangeSep) title.data).foldl rangeStep
              ((finditerPairs (tryPairAt matchMultiSep) title.data).foldl pairStep []))) := by
        apply mem_foldl_addUnique_mono
        apply mem_foldl_pairStep_mono
        exact mem_foldl_rangeStep_of_mem _ _ hmem hle hspan k hk1 hk2
      rw [if_neg (List.ne_nil_of_mem hk)]
      exact hk
  · intro l p hnc
    unfold rangeStep
    rw [if_neg hnc, if_neg (by rintro (h | h) <;> exact hnc (by omega))]

/-- C5 witness: in "Show 1-5" the sane range is expanded, e.g. 3 appears. -/
theorem range_expansion_witness : toString 3 ∈ parse_event_title_numbers "Show 1-5" :=
  range_expansion.1 "Show 1-5" "1" "5" (by decide) (by decide) (by decide) 3
    (by decide) (by decide)

/-!
## C6 -/

theorem staleStudioPrep_iff {now : Int} {t : Task} :
    staleStudioPrep now t = true ↔
      t.type = TaskType.studio_preparation ∧
        ∃ d : Int, t.due_date = some d ∧ d < now - 1440 := by
  unfold staleStudioPrep
  cases hd : t.due_date with
  | none => simp [hd]
  | some d => simp [hd]

/-- C6: the daily stale cleanup returns the number of deleted rows, keeps a
task iff it is not a studio-preparation task with a due date more than one
day in the past, retains studio-preparation tasks due within the last day,
and a deleted task is absent from subsequent per-episode queries. -/
theorem stale_cleanup_spec (now : Int) (db : DB) :
    (delete_stale_studio_preparation_tasks now db).1 =
      (db.tasks.filter (staleStudioPrep now)).length ∧
    (∀ t : Task, t ∈ (delete_stale_studio_preparation_tasks now db).2.tasks ↔
      t ∈ db.tasks ∧ ¬(t.type = TaskType.studio_preparation ∧
        ∃ d : Int, t.due_date = some d ∧ d < now - 1440)) ∧
    (∀ t ∈ db.tasks, t.type = TaskType.studio_preparation →
      ∀ d : Int, t.due_date = some d → now - 1440 ≤ d →
      t ∈ (delete_stale_studio_preparation_tasks now db).2.tasks) ∧
    (∀ t ∈ db.tasks, t.type = TaskType.studio_preparation →
      ∀ d : Int, t.due_date = some d → d < now - 1440 →
      t ∉ ((delete_stale_studio_preparation_tasks now db).2.tasks.filter
        (fun x => x.episode_id == t.episode_id))) := by
  have hmemfilt : ∀ t : Task,
      t ∈ (delete_stale_studio_preparation_tasks now db).2.tasks ↔
      t ∈ db.tasks ∧ staleStudioPrep now t = false := by
    intro t
    show t ∈ db.tasks.filter (fun t => !(staleStudioPrep now t)) ↔ _
    rw [List.mem_filter]
    simp [Bool.not_eq_true']
  have hiff : ∀ t : Task,
      t ∈ (delete_stale_studio_preparation_tasks now db).2.tasks ↔
      t ∈ db.tasks ∧ ¬(t.type = TaskType.studio_preparation ∧
        ∃ d : Int, t.due_date = some d ∧ d < now - 1440) := by
    intro t
    rw [hmemfilt t, ← staleStudioPrep_iff]
    constructor
    · rintro ⟨h1, h2⟩
      exact ⟨h1, by simp [h2]⟩
    · rintro ⟨h1, h2⟩
      refine ⟨h1, ?_⟩
      cases hb : staleStudioPrep now t
      · rfl
      · exact absurd hb h2
  refine ⟨rfl, hiff, ?_, ?_⟩
  · intro t hmem hty d hd hle
    rw [hiff t]
    refine ⟨hmem, ?_⟩
    rintro ⟨-, d', hd', hlt⟩
    rw [hd] at hd'
    have : d = d' := Option.some_injective _ hd'
    omega
  · intro t hmem hty d hd hlt hcontra
    have h1 := (List.mem_filter.mp hcontra).1
    have h2 := (hiff t).mp h1
    exact h2.2 ⟨hty, d, hd, hlt⟩

/-- A stale studio-preparation task (due at time 0, checked at time 2000). -/
def staleTask : Task :=
  { id := 6, episode_id := 1, type := TaskType.studio_preparation,
    status := TaskStatus.not_started, assigned_to := none, due_date := some 0,
    completed_at := none, notes := "" }

/-- A store holding the stale studio-preparation task. -/
def dbStale : DB :=
  { podcasts := [], aliases := [], episodes := [epX], tasks := [staleTask],
    nextTaskId := 7, nextEpisodeId := 2 }

/-- C6 witness: at time 2000 the task due at 0 (more than 1440 past) is gone
from the per-episode query after cleanup. -/
theorem stale_cleanup_spec_witness :
    staleTask ∉ ((delete_stale_studio_preparation_tasks 2000 dbStale).2.tasks.filter
      (fun x => x.episode_id == staleTask.episode_id)) :=
  (stale_cleanup_spec 2000 dbStale).2.2.2 staleTask (by decide) rfl 0 rfl (by decide)

/-!
## C7 -/

/-- `max(candidates, key=..)` returns the head or a later element, and its
key is maximal (first maximum wins on ties). -/
theorem pyMaxBySnd_spec (x : Nat × Nat) (xs : List (Nat × Nat)) :
    (pyMaxBySnd x xs = x ∨ pyMaxBySnd x xs ∈ xs) ∧
    ∀ y ∈ x :: xs, y.2 ≤ (pyMaxBySnd x xs).2 := by
  induction xs generalizing x with
  | nil =>
    refine ⟨Or.inl rfl, ?_⟩
    intro y hy
    rw [List.mem_singleton] at hy
    subst hy
    exact le_refl _
  | cons z zs ih =>
    have hstep : pyMaxBySnd x (z :: zs) = pyMaxBySnd (if z.2 > x.2 then z else x) zs := rfl
    obtain ⟨ihm, ihb⟩ := ih (if z.2 > x.2 then z else x)
    constructor
    · rcases ihm with he | hm
      · rw [hstep, he]
        split
        · exact Or.inr (List.mem_cons_self z zs)
        · exact Or.inl rfl
      · rw [hstep]
        exact Or.inr (List.mem_cons_of_mem z hm)
    · intro y hy
      rw [hstep]
      rcases List.mem_cons.mp hy with rfl | hy'
      · refine le_trans ?_ (ihb _ (List.mem_cons_self _ _))
        split
        · omega
        · exact le_refl _
      · rcases List.mem_cons.mp hy' with rfl | hy''
        · refine le_trans ?_ (ihb _ (List.mem_cons_self _ _))
          split
          · exact le_refl _
          · omega
        · exact ihb y (List.mem_cons_of_mem _ hy'')

/-- Podcast "The" (short common name). -/
def thePod : Podcast := { id := 1, name := "The", default_studio_settings := none }

/-- Podcast "The Show" (longer specific name). -/
def theShow : Podcast := { id := 2, name := "The Show", default_studio_settings := none }

/-- A store holding both "The" and "The Show". -/
def dbThe : DB :=
  { podcasts := [thePod, theShow], aliases := [], episodes := [], tasks := [],
    nextTaskId := 0, nextEpisodeId := 0 }

/-- C7: `find_podcast_from_event_title` first tries the whole trimmed title
via `find_podcast_by_name_or_alias`; otherwise it collects every podcast
name and alias occurring case-insensitively in the title and returns the
podcast of the longest matching string, first-encountered winning ties; it
returns null on an empty title or when nothing matches; in particular, with
"The" and "The Show" on file, "The Show - episode 1" resolves to
"The Show". -/
theorem podcast_resolution (db : DB) (title : String) :
    (title = "" → find_podcast_from_event_title db title = none) ∧
    (∀ p : Podcast, title ≠ "" →
      find_podcast_by_name_or_alias db (strStrip title) = some p →
      find_podcast_from_event_title db title = some p) ∧
    (title ≠ "" → find_podcast_by_name_or_alias db (strStrip title) = none →
      titleCandidates db (strStrip title) = [] →
      find_podcast_from_event_title db title = none) ∧
    (∀ (c : Nat × Nat) (cs : List (Nat × Nat)), title ≠ "" →
      find_podcast_by_name_or_alias db (strStrip title) = none →
      titleCandidates db (strStrip title) = c :: cs →
      find_podcast_from_event_title db title =
        find_podcast_by_id db (pyMaxBySnd c cs).1 ∧
      (pyMaxBySnd c cs = c ∨ pyMaxBySnd c cs ∈ cs) ∧
      (∀ q ∈ c :: cs, q.2 ≤ (pyMaxBySnd c cs).2)) ∧
    find_podcast_from_event_title dbThe "The Show - episode 1" = some theShow := by
  refine ⟨?_, ?_, ?_, ?_, by decide⟩
  · intro h
    simp [find_podcast_from_event_title, h]
  · intro p hne hsome
    unfold find_podcast_from_event_title
    rw [if_neg hne]
    simp only [hsome]
  · intro hne hnone hcands
    unfold find_podcast_from_event_title
    rw [if_neg hne]
    simp only [hnone, hcands]
  · intro c cs hne hnone hcands
    refine ⟨?_, (pyMaxBySnd_spec c cs).1, (pyMaxBySnd_spec c cs).2⟩
    unfold find_podcast_from_event_title
    rw [if_neg hne]
    simp only [hnone, hcands]

/-- C7 witness: the general longest-match clause applied to the concrete
"The"/"The Show" store resolves the title through the maximal candidate. -/
theorem podcast_resolution_witness :
    find_podcast_from_event_title dbThe "The Show - episode 1" =
      find_podcast_by_id dbThe (pyMaxBySnd (1, 3) [(2, 8)]).1 :=
  (((podcast_resolution dbThe "The Show - episode 1").2.2.2.1 (1, 3) [(2, 8)]
    (by decide) (by decide) (by decide)).1)

/-!
## C8 -/

/-- The episode the upsert inserts matches the upsert filter of the same
event (its recording date lies within its own calendar day). -/
theorem newEpisode_matches (db : DB) (ev : EventData) (podcast : Podcast)
    (num : String) (rd : Int) (hnum : ev.episode_number = some num)
    (hrd : ev.recording_date = some rd) :
    matchesUpsert podcast.id num rd (newEpisodeFromEvent db ev podcast) = true := by
  have h1 : 0 ≤ rd % 1440 := Int.emod_nonneg rd (by norm_num)
  have h2 : rd % 1440 < 1440 := Int.emod_lt_of_pos rd (by norm_num)
  simp [matchesUpsert, newEpisodeFromEvent, hnum, hrd, dayStart]
  omega

/-- The update branch of the upsert, taken when a row matches. -/
theorem upsert_update_branch (db : DB) (ev : EventData) (podcast : Podcast)
    (num : String) (rd : Int) (e : Episode)
    (hnum : ev.episode_number = some num) (hne : num ≠ "")
    (hrd : ev.recording_date = some rd)
    (hfind : db.episodes.find? (matchesUpsert podcast.id num rd) = some e) :
    create_or_update_episode_from_event db ev podcast =
      (some (applyEventUpdate ev e),
       { db with episodes := db.episodes.map (fun x => if x.id == e.id then applyEventUpdate ev e else x) }) := by
  unfold create_or_update_episode_from_event
  simp only [hnum, hrd]
  rw [if_pos hne, hfind]

/-- The insert branch of the upsert, taken when no row matches. -/
theorem upsert_insert_branch (db : DB) (ev : EventData) (podcast : Podcast)
    (num : String) (rd : Int)
    (hnum : ev.episode_number = some num) (hne : num ≠ "")
    (hrd : ev.recording_date = some rd)
    (hfind : db.episodes.find? (matchesUpsert podcast.id num rd) = none) :
    create_or_update_episode_from_event db ev podcast =
      (some (newEpisodeFromEvent db ev podcast),
       { db with episodes := db.episodes ++ [newEpisodeFromEvent db ev podcast], nextEpisodeId := db.nextEpisodeId + 1 }) := by
  unfold create_or_update_episode_from_event
  simp only [hnum, hrd]
  rw [if_pos hne, hfind]

theorem applyEventUpdate_keeps (ev : EventData) (e : Episode) :
    (applyEventUpdate ev e).podcast_id = e.podcast_id ∧
    (applyEventUpdate ev e).episode_number = e.episode_number ∧
    (applyEventUpdate ev e).id = e.id := by
  unfold applyEventUpdate applyNotesUpdate applyGuestUpdate applyStudioUpdate applyDateUpdate
  rcases hrd2 : ev.recording_date with _ | rd2 <;> simp only [hrd2] <;> split_ifs <;>
    exact ⟨rfl, rfl, rfl⟩

theorem applyEventUpdate_rd (ev : EventData) (e : Episode) (rd : Int)
    (hrd : ev.recording_date = some rd) :
    (applyEventUpdate ev e).recording_date = some rd := by
  unfold applyEventUpdate applyNotesUpdate applyGuestUpdate applyStudioUpdate applyDateUpdate
  rw [hrd]
  split_ifs <;> rfl

theorem applyEventUpdate_studio (ev : EventData) (e : Episode) :
    (optTruthy e.studio = true → (applyEventUpdate ev e).studio = e.studio) ∧
    (optTruthy e.studio = false → optTruthy ev.studio = true →
      (applyEventUpdate ev e).studio = ev.studio) := by
  unfold applyEventUpdate applyNotesUpdate applyGuestUpdate applyStudioUpdate applyDateUpdate
  constructor
  · intro h
    rcases hrd2 : ev.recording_date with _ | rd2 <;> simp only [hrd2] <;> split_ifs <;>
      simp_all
  · intro h1 h2
    rcases hrd2 : ev.recording_date with _ | rd2 <;> simp only [hrd2] <;> split_ifs <;>
      simp_all

theorem applyEventUpdate_guests (ev : EventData) (e : Episode) :
    (optTruthy e.guest_names = true →
      (applyEventUpdate ev e).guest_names = e.guest_names) ∧
    (optTruthy e.guest_names = false → optTruthy ev.guest_names = true →
      (applyEventUpdate ev e).guest_names = ev.guest_names) := by
  unfold applyEventUpdate applyNotesUpdate applyGuestUpdate applyStudioUpdate applyDateUpdate
  constructor
  · intro h
    rcases hrd2 : ev.recording_date with _ | rd2 <;> simp only [hrd2] <;> split_ifs <;>
      simp_all
  · intro h1 h2
    rcases hrd2 : ev.recording_date with _ | rd2 <;> simp only [hrd2] <;> split_ifs <;>
      simp_all

theorem applyEventUpdate_notes (ev : EventData) (e : Episode) :
    (optTruthy e.episode_notes = true →
      (applyEventUpdate ev e).episode_notes = e.episode_notes) ∧
    (optTruthy e.episode_notes = false → optTruthy ev.notes = true →
      (applyEventUpdate ev e).episode_notes = ev.notes) := by
  unfold applyEventUpdate applyNotesUpdate applyGuestUpdate applyStudioUpdate applyDateUpdate
  constructor
  · intro h
    rcases hrd2 : ev.recording_date with _ | rd2 <;> simp only [hrd2] <;> split_ifs <;>
      simp_all
  · intro h1 h2
    rcases hrd2 : ev.recording_date with _ | rd2 <;> simp only [hrd2] <;> split_ifs <;>
      simp_all

/-- C8: ingesting the same calendar event twice (same podcast, episode
number, recording date within the same day) leaves exactly one matching
Episode row: the first pass inserts a fresh row with status not_started, the
second pass matches that row, updates recording_date, fills only empty
studio/guest/notes fields, and inserts nothing. -/
theorem calendar_upsert_idempotent (db : DB) (ev : EventData) (podcast : Podcast)
    (num : String) (rd : Int)
    (hnum : ev.episode_number = some num) (hne : num ≠ "")
    (hrd : ev.recording_date = some rd)
    (hfind : db.episodes.find? (matchesUpsert podcast.id num rd) = none)
    (hbound : ∀ e ∈ db.episodes, e.id < db.nextEpisodeId) :
    ((create_or_update_episode_from_event db ev podcast).1 =
        some (newEpisodeFromEvent db ev podcast) ∧
      (create_or_update_episode_from_event db ev podcast).2.episodes =
        db.episodes ++ [newEpisodeFromEvent db ev podcast] ∧
      (newEpisodeFromEvent db ev podcast).status = EpisodeStatus.not_started) ∧
    ((create_or_update_episode_from_event
        (create_or_update_episode_from_event db ev podcast).2 ev podcast).1 =
        some (applyEventUpdate ev (newEpisodeFromEvent db ev podcast)) ∧
      ((create_or_update_episode_from_event
        (create_or_update_episode_from_event db ev podcast).2 ev podcast).2).episodes.length =
        db.episodes.length + 1 ∧
      (((create_or_update_episode_from_event
        (create_or_update_episode_from_event db ev podcast).2 ev podcast).2).episodes.filter
          (matchesUpsert podcast.id num rd)).length = 1) ∧
    (∀ e : Episode,
      (applyEventUpdate ev e).recording_date = some rd ∧
      (optTruthy e.studio = true → (applyEventUpdate ev e).studio = e.studio) ∧
      (optTruthy e.studio = false → optTruthy ev.studio = true →
        (applyEventUpdate ev e).studio = ev.studio) ∧
      (optTruthy e.guest_names = true →
        (applyEventUpdate ev e).guest_names = e.guest_names) ∧
      (optTruthy e.guest_names = false → optTruthy ev.guest_names = true →
        (applyEventUpdate ev e).guest_names = ev.guest_names) ∧
      (optTruthy e.episode_notes = true →
        (applyEventUpdate ev e).episode_notes = e.episode_notes) ∧
      (optTruthy e.episode_notes = false → optTruthy ev.notes = true →
        (applyEventUpdate ev e).episode_notes = ev.notes)) := by
  have hcall1 := upsert_insert_branch db ev podcast num rd hnum hne hrd hfind
  have hfind2 : ((create_or_update_episode_from_event db ev podcast).2).episodes.find?
      (matchesUpsert podcast.id num rd) = some (newEpisodeFromEvent db ev podcast) := by
    rw [hcall1]
    show (db.episodes ++ [newEpisodeFromEvent db ev podcast]).find? _ = _
    rw [find?_append_of_none hfind]
    exact List.find?_cons_of_pos _ (newEpisode_matches db ev podcast num rd hnum hrd)
  have hcall2 := upsert_update_branch ((create_or_update_episode_from_event db ev podcast).2)
    ev podcast num rd (newEpisodeFromEvent db ev podcast) hnum hne hrd hfind2
  have hmapeq : ((db.episodes ++ [newEpisodeFromEvent db ev podcast]).map (fun x =>
      if x.id == (newEpisodeFromEvent db ev podcast).id then
        applyEventUpdate ev (newEpisodeFromEvent db ev podcast) else x)) =
      db.episodes ++ [applyEventUpdate ev (newEpisodeFromEvent db ev podcast)] := by
    rw [List.map_append]
    congr 1
    · have hid : ∀ x ∈ db.episodes,
          (if x.id == (newEpisodeFromEvent db ev podcast).id then
            applyEventUpdate ev (newEpisodeFromEvent db ev podcast) else x) = id x := by
        intro x hx
        have hlt := hbound x hx
        have : (x.id == (newEpisodeFromEvent db ev podcast).id) = false := by
          simp only [newEpisodeFromEvent]
          simp only [beq_eq_false_iff_ne, ne_eq]
          omega
        rw [this]
        rfl
      rw [List.map_congr_left hid, List.map_id]
    · simp
  have hfilterdb : db.episodes.filter (matchesUpsert podcast.id num rd) = [] :=
    List.filter_eq_nil_iff.mpr (List.find?_eq_none.mp hfind)
  have hupdmatch : matchesUpsert podcast.id num rd
      (applyEventUpdate ev (newEpisodeFromEvent db ev podcast)) = true := by
    have hk := applyEventUpdate_keeps ev (newEpisodeFromEvent db ev podcast)
    have hr := applyEventUpdate_rd ev (newEpisodeFromEvent db ev podcast) rd hrd
    have h1 : 0 ≤ rd % 1440 := Int.emod_nonneg rd (by norm_num)
    have h2 : rd % 1440 < 1440 := Int.emod_lt_of_pos rd (by norm_num)
    unfold matchesUpsert
    rw [hk.1, hk.2.1, hr]
    simp [newEpisodeFromEvent, hnum, dayStart]
    omega
  refine ⟨⟨by rw [hcall1], by rw [hcall1], rfl⟩, ⟨by rw [hcall2], ?_, ?_⟩, ?_⟩
  · rw [hcall2, hcall1]
    show ((db.episodes ++ [newEpisodeFromEvent db ev podcast]).map _).length = _
    simp
  · rw [hcall2, hcall1]
    show (((db.episodes ++ [newEpisodeFromEvent db ev podcast]).map (fun x =>
        if x.id == (newEpisodeFromEvent db ev podcast).id then
          applyEventUpdate ev (newEpisodeFromEvent db ev podcast) else x)).filter
            (matchesUpsert podcast.id num rd)).length = 1
    rw [hmapeq, List.filter_append, hfilterdb]
    simp [List.filter, hupdmatch]
  · intro e
    exact ⟨applyEventUpdate_rd ev e rd hrd, (applyEventUpdate_studio ev e).1,
      (applyEventUpdate_studio ev e).2, (applyEventUpdate_guests ev e).1,
      (applyEventUpdate_guests ev e).2, (applyEventUpdate_notes ev e).1,
      (applyEventUpdate_notes ev e).2⟩

/-- A second concrete podcast for the upsert witness. -/
def pod5 : Podcast := { id := 5, name := "P", default_studio_settings := none }

/-- Concrete event data: episode 7 recorded at minute 10000. -/
def ev8 : EventData :=
  { episode_number := some "7", episode_numbers := ["7"], recording_date := some 10000,
    studio := some "A", guest_names := none, notes := some "n" }

/-- C8 witness: the first ingest of the concrete event inserts the fresh
episode row. -/
theorem calendar_upsert_idempotent_witness :
    (create_or_update_episode_from_event dbX ev8 pod5).1 =
      some (newEpisodeFromEvent dbX ev8 pod5) :=
  ((calendar_upsert_idempotent dbX ev8 pod5 "7" 10000 rfl (by decide) rfl (by decide)
    (by decide)).1).1

/-!
## C9 -/

theorem upsert_podcasts_eq (db : DB) (ev : EventData) (p : Podcast) :
    ((create_or_update_episode_from_event db ev p).2).podcasts = db.podcasts ∧
    ((create_or_update_episode_from_event db ev p).2).aliases = db.aliases := by
  unfold create_or_update_episode_from_event
  split
  · exact ⟨rfl, rfl⟩
  · exact ⟨rfl, rfl⟩

theorem syncStep_frame (p : Podcast) (d : EventData) (acc : Nat × DB)
    (n : Option String) :
    ((syncStep p d acc n).2).podcasts = acc.2.podcasts ∧
    ((syncStep p d acc n).2).aliases = acc.2.aliases := by
  have h := upsert_podcasts_eq acc.2 { d with episode_number := n } p
  cases hc : create_or_update_episode_from_event acc.2
      { d with episode_number := n } p with
  | mk r1 db2 =>
    rw [hc] at h
    unfold syncStep
    rw [hc]
    cases r1 <;> exact h

theorem todaysStep_frame (p : Podcast) (d : EventData) (acc : List Episode × DB)
    (n : Option String) :
    ((todaysStep p d acc n).2).podcasts = acc.2.podcasts ∧
    ((todaysStep p d acc n).2).aliases = acc.2.aliases := by
  have h := upsert_podcasts_eq acc.2 { d with episode_number := n } p
  cases hc : create_or_update_episode_from_event acc.2
      { d with episode_number := n } p with
  | mk r1 db2 =>
    rw [hc] at h
    unfold todaysStep
    rw [hc]
    cases r1 <;> exact h

theorem foldl_syncStep_frame (p : Podcast) (d : EventData) :
    ∀ (nums : List (Option String)) (acc : Nat × DB),
    ((nums.foldl (syncStep p d) acc).2).podcasts = acc.2.podcasts ∧
    ((nums.foldl (syncStep p d) acc).2).aliases = acc.2.aliases
  | [], _ => ⟨rfl, rfl⟩
  | n :: nums, acc => by
    have h1 := syncStep_frame p d acc n
    have h2 := foldl_syncStep_frame p d nums (syncStep p d acc n)
    exact ⟨h2.1.trans h1.1, h2.2.trans h1.2⟩

theorem foldl_todaysStep_frame (p : Podcast) (d : EventData) :
    ∀ (nums : List (Option String)) (acc : List Episode × DB),
    ((nums.foldl (todaysStep p d) acc).2).podcasts = acc.2.podcasts ∧
    ((nums.foldl (todaysStep p d) acc).2).aliases = acc.2.aliases
  | [], _ => ⟨rfl, rfl⟩
  | n :: nums, acc => by
    have h1 := todaysStep_frame p d acc n
    have h2 := foldl_todaysStep_frame p d nums (todaysStep p d acc n)
    exact ⟨h2.1.trans h1.1, h2.2.trans h1.2⟩

theorem sync_one_event_frame (db : DB) (ev : CalEvent) :
    ((sync_one_event db ev).2).podcasts = db.podcasts ∧
    ((sync_one_event db ev).2).aliases = db.aliases := by
  unfold sync_one_event
  split
  · exact ⟨rfl, rfl⟩
  · split
    · exact ⟨rfl, rfl⟩
    · exact foldl_syncStep_frame _ _ _ _

theorem todays_one_event_frame (db : DB) (ev : CalEvent) :
    ((todays_one_event db ev).2).podcasts = db.podcasts ∧
    ((todays_one_event db ev).2).aliases = db.aliases := by
  unfold todays_one_event
  split
  · exact ⟨rfl, rfl⟩
  · split
    · exact ⟨rfl, rfl⟩
    · exact foldl_todaysStep_frame _ _ _ _

theorem foldl_syncEventStep_frame :
    ∀ (events : List CalEvent) (acc : Nat × DB),
    ((events.foldl syncEventStep acc).2).podcasts = acc.2.podcasts ∧
    ((events.foldl syncEventStep acc).2).aliases = acc.2.aliases
  | [], _ => ⟨rfl, rfl⟩
  | ev :: events, acc => by
    have h1 := sync_one_event_frame acc.2 ev
    have h2 := foldl_syncEventStep_frame events (syncEventStep acc ev)
    exact ⟨h2.1.trans h1.1, h2.2.trans h1.2⟩

theorem foldl_todaysEventStep_frame :
    ∀ (events : List CalEvent) (acc : List Episode × DB),
    ((events.foldl todaysEventStep acc).2).podcasts = acc.2.podcasts ∧
    ((events.foldl todaysEventStep acc).2).aliases = acc.2.aliases
  | [], _ => ⟨rfl, rfl⟩
  | ev :: events, acc => by
    have h1 := todays_one_event_frame acc.2 ev
    have h2 := foldl_todaysEventStep_frame events (todaysEventStep acc ev)
    exact ⟨h2.1.trans h1.1, h2.2.trans h1.2⟩

/-- C9: neither calendar ingestion loop ever creates (or removes) a Podcast
or an Alias, and an event whose title resolves to no known podcast is
skipped entirely, leaving the store untouched and producing no episode. -/
theorem calendar_never_creates_podcasts :
    (∀ (db : DB) (events : List CalEvent),
      ((sync_calendar_to_database db events).2).podcasts = db.podcasts ∧
      ((sync_calendar_to_database db events).2).aliases = db.aliases ∧
      ((get_todays_episodes_from_calendar db events).2).podcasts = db.podcasts ∧
      ((get_todays_episodes_from_calendar db events).2).aliases = db.aliases) ∧
    (∀ (db : DB) (ev : CalEvent),
      find_podcast_from_event_title db ev.summary = none →
      sync_one_event db ev = (0, db) ∧ todays_one_event db ev = ([], db)) := by
  constructor
  · intro db events
    exact ⟨(foldl_syncEventStep_frame events (0, db)).1,
      (foldl_syncEventStep_frame events (0, db)).2,
      (foldl_todaysEventStep_frame events ([], db)).1,
      (foldl_todaysEventStep_frame events ([], db)).2⟩
  · intro db ev hfind
    constructor
    · unfold sync_one_event
      split
      · rfl
      · simp only [hfind]
    · unfold todays_one_event
      split
      · rfl
      · simp only [hfind]

/-- C9 witness: an event titled with no known podcast is skipped by the
concrete store. -/
theorem calendar_never_creates_podcasts_witness :
    sync_one_event dbThe ⟨"unrelated event", ev8⟩ = (0, dbThe) :=
  (calendar_never_creates_podcasts.2 dbThe ⟨"unrelated event", ev8⟩ (by decide)).1

/-!
## C10 -/

/-- When the event carries no truthy episode number or no recording date,
the upsert performs no lookup and always inserts a fresh row. -/
theorem upsert_skips_lookup (db : DB) (ev : EventData) (podcast : Podcast)
    (h : ev.episode_number = none ∨ ev.episode_number = some "" ∨
      ev.recording_date = none) :
    create_or_update_episode_from_event db ev podcast =
      (some (newEpisodeFromEvent db ev podcast),
       { db with episodes := db.episodes ++ [newEpisodeFromEvent db ev podcast], nextEpisodeId := db.nextEpisodeId + 1 }) := by
  have hnone : (match ev.episode_number, ev.recording_date with
      | some num, some rd =>
        if num ≠ "" then db.episodes.find? (matchesUpsert podcast.id num rd) else none
      | _, _ => none) = (none : Option Episode) := by
    rcases h1 : ev.episode_number with _ | num <;>
      rcases h2 : ev.recording_date with _ | rd
    · rfl
    · rfl
    · rfl
    · show (if num ≠ "" then db.episodes.find? (matchesUpsert podcast.id num rd)
        else none) = none
      rcases h with h | h | h
      · rw [h1] at h
        exact Option.noConfusion h
      · rw [h1] at h
        have hnum : num = "" := Option.some.inj h
        rw [if_neg (not_not_intro hnum)]
      · rw [h2] at h
        exact Option.noConfusion h
  unfold create_or_update_episode_from_event
  rw [hnone]

/-- C10: with a null (or empty) episode number or a null recording date, the
upsert never matches an existing row: each call appends a fresh Episode with
status not_started, so re-ingesting such an event is not idempotent — two
ingests leave two rows. -/
theorem upsert_without_number_not_idempotent (db : DB) (ev : EventData)
    (podcast : Podcast)
    (h : ev.episode_number = none ∨ ev.episode_number = some "" ∨
      ev.recording_date = none) :
    (create_or_update_episode_from_event db ev podcast).1 =
      some (newEpisodeFromEvent db ev podcast) ∧
    (create_or_update_episode_from_event db ev podcast).2.episodes =
      db.episodes ++ [newEpisodeFromEvent db ev podcast] ∧
    (newEpisodeFromEvent db ev podcast).status = EpisodeStatus.not_started ∧
    ((create_or_update_episode_from_event
      (create_or_update_episode_from_event db ev podcast).2 ev podcast).2).episodes.length =
      db.episodes.length + 2 := by
  have h1 := upsert_skips_lookup db ev podcast h
  have h2 := upsert_skips_lookup ((create_or_update_episode_from_event db ev podcast).2)
    ev podcast h
  refine ⟨by rw [h1], by rw [h1], rfl, ?_⟩
  rw [h2, h1]
  show ((db.episodes ++ [_]) ++ [_]).length = db.episodes.length + 2
  simp

/-- Concrete event data with no episode number. -/
def evNoNum : EventData :=
  { episode_number := none, episode_numbers := [], recording_date := some 10000,
    studio := none, guest_names := none, notes := none }

/-- C10 witness: two ingests of the number-less concrete event leave two
rows. -/
theorem upsert_without_number_not_idempotent_witness :
    ((create_or_update_episode_from_event
      (create_or_update_episode_from_event dbX evNoNum pod5).2 evNoNum pod5).2).episodes.length =
      dbX.episodes.length + 2 :=
  (upsert_without_number_not_idempotent dbX evNoNum pod5 (Or.inl rfl)).2.2.2

end Bizi
